import Mathlib

/-!
Shallow embedding of the streamdeck Go library (rafaelmartins/streamdeck)
for checking its natural-language specification.

The embedding follows the Go source files `models.go`, `image.go`,
`input.go` and the device facade (`streamdeck.go`):

* machine integers (`byte`, `uint16`) are modelled as `Nat` with explicit
  `% 256` / `% 65536` where Go overflow semantics matter;
* Go slices of bytes are `List Nat`; Go slice expressions `b[i:j]` are
  `(b.take j).drop i`, guarded by the same bounds Go checks at runtime
  (a failed bound is a Go panic, modelled as `Option.none`);
* fallible operations return `Except sdError`;
* the USB transport (package usbhid) is out of scope for the spec: its
  read/write primitives are abstracted (a read either yields a report or
  an I/O error; writes always succeed), and its static report-length
  constants are parameters.
-/

set_option maxRecDepth 4000

instance {ε α : Type} [DecidableEq ε] [DecidableEq α] :
    DecidableEq (Except ε α) := fun a b =>
  match a, b with
  | .error e, .error f =>
      if h : e = f then .isTrue (h ▸ rfl)
      else .isFalse (fun hc => h (by cases hc; rfl))
  | .ok x, .ok y =>
      if h : x = y then .isTrue (h ▸ rfl)
      else .isFalse (fun hc => h (by cases hc; rfl))
  | .error _, .ok _ => .isFalse (fun hc => Except.noConfusion hc)
  | .ok _, .error _ => .isFalse (fun hc => Except.noConfusion hc)

/-- Error taxonomy of the library, following the `Err*` values of the
package and the two `fmt.Errorf` cases of `getModel`.  Both `getModel`
failures wrap `ErrDeviceEnumerationFailed`; the two constructors keep the
distinct message payloads. -/
inductive sdError where
  | enumNotElgato (vid : Nat)
  | enumNotSupported (vid pid : Nat)
  | deviceIsClosed
  | deviceIsOpen
  | infoBarNotSupported
  | touchPointNotSupported
  | touchStripNotSupported
  | imageInvalid
  | invalidImageFormat
  | keyInvalid (k : Nat)
  | keyHandlerInvalid
  | touchPointInvalid (tp : Nat)
  | touchPointHandlerInvalid
  | dialInvalid (di : Nat)
  | dialHandlerInvalid
  | touchStripHandlerInvalid
  | updateCallbackNotSet
  | unexpectedReportId (id : Nat)
  | ioReadFailed
  deriving DecidableEq, Repr

/-- Static part of the per-model protocol descriptor (Go struct `model` in
`models.go`).  The function-valued fields (`keyImageSend`,
`infoBarImageSend`, `touchPointColorSend`, `touchStripImageSend`, `reset`,
`brightness`, `firmwareVersion`) are represented by presence flags where
the code tests them against `nil`; their byte-building behaviour is
modelled separately where a claim needs it. -/
structure modelInfo where
  mid : String
  keyStart : Nat
  keyCount : Nat
  keyImageW : Nat
  keyImageH : Nat
  keyImageFormat : Nat
  keyImageTransform : Nat
  hasInfoBar : Bool
  infoBarW : Nat
  infoBarH : Nat
  touchPointStart : Nat
  touchPointCount : Nat
  hasTouchPointColorSend : Bool
  dialStart : Nat
  dialCount : Nat
  hasTouchStrip : Bool
  touchStripW : Nat
  touchStripH : Nat
  deriving DecidableEq, Repr

/-- Image format constants (`imageFormatBMP = 0`, `imageFormatJPEG = 1`). -/
def imageFormatBMP : Nat := 0

def imageFormatJPEG : Nat := 1

/-- Transform bits (`imageTransformFlipVertical = 1`,
`imageTransformFlipHorizontal = 2`, `imageTransformRotate90 = 4`). -/
def imageTransformFlipVertical : Nat := 1

def imageTransformFlipHorizontal : Nat := 2

def imageTransformRotate90 : Nat := 4

/-- Stream Deck Mini descriptor (product id 0x0063). -/
def miniModel : modelInfo where
  mid := "mini"
  keyStart := 0
  keyCount := 6
  keyImageW := 80
  keyImageH := 80
  keyImageFormat := imageFormatBMP
  keyImageTransform := imageTransformRotate90 ||| imageTransformFlipHorizontal
  hasInfoBar := false
  infoBarW := 0
  infoBarH := 0
  touchPointStart := 0
  touchPointCount := 0
  hasTouchPointColorSend := false
  dialStart := 0
  dialCount := 0
  hasTouchStrip := false
  touchStripW := 0
  touchStripH := 0

/-- Stream Deck MK.2 descriptor (product id 0x0080). -/
def mk2Model : modelInfo where
  mid := "mk2"
  keyStart := 3
  keyCount := 15
  keyImageW := 72
  keyImageH := 72
  keyImageFormat := imageFormatJPEG
  keyImageTransform := imageTransformFlipHorizontal ||| imageTransformFlipVertical
  hasInfoBar := false
  infoBarW := 0
  infoBarH := 0
  touchPointStart := 0
  touchPointCount := 0
  hasTouchPointColorSend := false
  dialStart := 0
  dialCount := 0
  hasTouchStrip := false
  touchStripW := 0
  touchStripH := 0

/-- Stream Deck Plus descriptor (product id 0x0084). -/
def plusModel : modelInfo where
  mid := "plus"
  keyStart := 3
  keyCount := 8
  keyImageW := 120
  keyImageH := 120
  keyImageFormat := imageFormatJPEG
  keyImageTransform := 0
  hasInfoBar := false
  infoBarW := 0
  infoBarH := 0
  touchPointStart := 0
  touchPointCount := 0
  hasTouchPointColorSend := false
  dialStart := 4
  dialCount := 4
  hasTouchStrip := true
  touchStripW := 800
  touchStripH := 100

/-- Stream Deck Neo descriptor (product id 0x009a). -/
def neoModel : modelInfo where
  mid := "neo"
  keyStart := 3
  keyCount := 8
  keyImageW := 96
  keyImageH := 96
  keyImageFormat := imageFormatJPEG
  keyImageTransform := imageTransformFlipHorizontal ||| imageTransformFlipVertical
  hasInfoBar := true
  infoBarW := 248
  infoBarH := 58
  touchPointStart := 11
  touchPointCount := 2
  hasTouchPointColorSend := true
  dialStart := 0
  dialCount := 0
  hasTouchStrip := false
  touchStripW := 0
  touchStripH := 0

/-- The Elgato vendor id constant. -/
def elgatoVendorID : Nat := 0x0fd9

/-- The model registry `models` keyed by product id. -/
def models (pid : Nat) : Option modelInfo :=
  match pid with
  | 0x0063 => some miniModel
  | 0x0080 => some mk2Model
  | 0x0084 => some plusModel
  | 0x009a => some neoModel
  | _ => none

/-- The alias map `modelAliases` (hardware revisions sharing a descriptor):
0x006d (V2) is an alias of 0x0080 (MK.2). -/
def modelAliases (pid : Nat) : Option Nat :=
  match pid with
  | 0x006d => some 0x0080
  | _ => none

/-- `getModel`: vendor check, one-level alias resolution, registry lookup.
The unsupported error carries the original (pre-alias) product id, as in
the Go source. -/
def getModel (vid pid : Nat) : Except sdError modelInfo :=
  if vid ≠ elgatoVendorID then
    .error (.enumNotElgato vid)
  else
    let id := match modelAliases pid with
              | some ma => ma
              | none => pid
    match models id with
    | some md => .ok md
    | none => .error (.enumNotSupported vid pid)

/-- `enumerateFunc`: the predicate used to filter enumeration results. -/
def enumerateFunc (vid pid : Nat) : Bool :=
  if vid ≠ elgatoVendorID then
    false
  else
    let id := match modelAliases pid with
              | some ma => ma
              | none => pid
    (models id).isSome

/-- `Device.validateKey`: key ids are `byte`s compared against
`KEY_1 = 1` and `KEY_1 + KeyID(keyCount)`; the sum wraps at 256 as the Go
`byte` addition does. -/
def validateKey (m : modelInfo) (key : Nat) : Except sdError Unit :=
  if key < 1 ∨ (1 + m.keyCount) % 256 ≤ key then
    .error (.keyInvalid key)
  else
    .ok ()

/-- `Device.validateTouchPoint`. -/
def validateTouchPoint (m : modelInfo) (tp : Nat) : Except sdError Unit :=
  if m.hasTouchPointColorSend = false ∨ m.touchPointCount = 0 then
    .error .touchPointNotSupported
  else if tp < 1 ∨ (1 + m.touchPointCount) % 256 ≤ tp then
    .error (.touchPointInvalid tp)
  else
    .ok ()

/-- `Device.validateDial`. -/
def validateDial (m : modelInfo) (di : Nat) : Except sdError Unit :=
  if di < 1 ∨ (1 + m.dialCount) % 256 ≤ di then
    .error (.dialInvalid di)
  else
    .ok ()

/-- `Device.validateInfoBar`. -/
def validateInfoBar (m : modelInfo) : Except sdError Unit :=
  if m.hasInfoBar then .ok () else .error .infoBarNotSupported

/-- `Device.validateTouchStrip`. -/
def validateTouchStrip (m : modelInfo) : Except sdError Unit :=
  if m.hasTouchStrip then .ok () else .error .touchStripNotSupported

/-- The key ids of the slots built by `newInputs`: `KEY_1 .. keyCount`
(1-based). -/
def keySlotIds (m : modelInfo) : List Nat :=
  (List.range m.keyCount).map (fun j => j + 1)

/-- Acceptance logic of `Device.AddKeyHandler` as a function of the model,
the key id and whether the callback is non-nil: `validateKey`, then the
nil-handler check, then the linear scan of the lazily built slot table
(whose key slots carry ids `KEY_1 .. keyCount`). -/
def addKeyHandlerCheck (m : modelInfo) (key : Nat) (fnPresent : Bool) :
    Except sdError Unit :=
  match validateKey m key with
  | .error e => .error e
  | .ok _ =>
      if fnPresent = false then
        .error .keyHandlerInvalid
      else if key ∈ keySlotIds m then
        .ok ()
      else
        .error (.keyInvalid key)

/-- Device facade state: the transport handle's open flag (`d.dev.IsOpen()`),
the `d.open` flag, the resolved descriptor, and whether the input slot
table was built.  `Device.IsOpen` is the conjunction of both flags. -/
structure DeviceM where
  model : modelInfo
  openFlag : Bool
  transportOpen : Bool
  inputsBuilt : Bool
  deriving DecidableEq, Repr

/-- `Device.IsOpen`. -/
def DeviceM.isOpen (d : DeviceM) : Bool :=
  d.openFlag && d.transportOpen

/-- `Device.validateOpen`. -/
def validateOpen (d : DeviceM) : Except sdError Unit :=
  if d.isOpen then .ok () else .error .deviceIsClosed

/-- `Device.Close` (closed-path behaviour; the display-clearing writes and
the transport close are abstracted as succeeding). -/
def closeDevice (d : DeviceM) : Except sdError DeviceM :=
  match validateOpen d with
  | .error e => .error e
  | .ok _ => .ok { d with openFlag := false }

/-- `Device.GetFirmwareVersion` (the feature-report exchange is
abstracted as succeeding). -/
def getFirmwareVersion (d : DeviceM) : Except sdError Unit :=
  match validateOpen d with
  | .error e => .error e
  | .ok _ => .ok ()

/-- `Device.Reset` (the reset feature report and transport close are
abstracted as succeeding). -/
def resetDevice (d : DeviceM) : Except sdError DeviceM :=
  match validateOpen d with
  | .error e => .error e
  | .ok _ => .ok { d with transportOpen := false }

/-- `Device.SetBrightness`: open check, then the percentage is clamped to
100 before the model's brightness command is issued (abstracted). -/
def setBrightness (d : DeviceM) (perc : Nat) : Except sdError Nat :=
  match validateOpen d with
  | .error e => .error e
  | .ok _ => .ok (if perc > 100 then 100 else perc)

/-- `Device.SetKeyImage`: open check, then key check, then the image is
encoded and sent (abstracted). -/
def setKeyImageOp (d : DeviceM) (key : Nat) : Except sdError Unit :=
  match validateOpen d with
  | .error e => .error e
  | .ok _ =>
      match validateKey d.model key with
      | .error e => .error e
      | .ok _ => .ok ()

/-- `Device.Listen`'s entry check (the loop itself is modelled by
`listenIter` below). -/
def listenEntry (d : DeviceM) : Except sdError Unit :=
  match validateOpen d with
  | .error e => .error e
  | .ok _ => .ok ()

/-- `Device.AddKeyHandler` on the device: note that it performs no
`validateOpen`, only key/handler validation and slot creation. -/
def addKeyHandler (d : DeviceM) (key : Nat) (fnPresent : Bool) :
    Except sdError DeviceM :=
  match addKeyHandlerCheck d.model key fnPresent with
  | .error e => .error e
  | .ok _ => .ok { d with inputsBuilt := true }

/-- `Device.GetKeyCount`: returns the descriptor constant; its Go
signature has no error result. -/
def getKeyCount (d : DeviceM) : Nat :=
  d.model.keyCount

/-- `Device.GetTouchPointCount`. -/
def getTouchPointCount (d : DeviceM) : Nat :=
  d.model.touchPointCount

/-- `Device.GetDialCount`. -/
def getDialCount (d : DeviceM) : Nat :=
  d.model.dialCount

/-- Decidable success test for `Except`. -/
def exceptOk {ε α : Type} (e : Except ε α) : Bool :=
  match e with
  | .ok _ => true
  | .error _ => false

/-- Per-control input slot state (`struct input` in `input.go`).  The Go
struct's mutex serialises access and is not part of the functional state;
the notification channel is represented by its generation counter (one
fresh channel per press), whether the current channel has been closed,
and how many times `close` ran on the current channel (Go panics on a
double close, so the invariant of interest is `chanCloses ≤ 1`).
Timestamps are `Option Nat` with `none` for Go's zero `time.Time`;
`duration` is a signed `time.Duration`. -/
structure inputState where
  chanGen : Nat
  chanClosed : Bool
  chanCloses : Nat
  pressed : Option Nat
  released : Option Nat
  duration : Int
  deriving DecidableEq, Repr

/-- The zero value of a freshly built slot (no channel yet, zero times). -/
def inputInit : inputState where
  chanGen := 0
  chanClosed := false
  chanCloses := 0
  pressed := none
  released := none
  duration := 0

/-- `input.press`: create a fresh notification channel, record the press
timestamp, clear the previous release timestamp and duration.  (The
handler goroutines it spawns are modelled as the dispatch events emitted
by `diffGo`.) -/
def pressState (s : inputState) (t : Nat) : inputState where
  chanGen := s.chanGen + 1
  chanClosed := false
  chanCloses := 0
  pressed := some t
  released := none
  duration := 0

/-- `input.release`: if a release timestamp is already recorded the call
returns with no change; otherwise it records the release timestamp, sets
`duration = released - pressed`, zeroes the press timestamp and closes
the notification channel. -/
def releaseState (s : inputState) (t : Nat) : inputState :=
  match s.released with
  | some _ => s
  | none =>
      { s with
        released := some t
        duration := (t : Int) - ((s.pressed.getD 0 : Nat) : Int)
        pressed := none
        chanClosed := true
        chanCloses := s.chanCloses + 1 }

/-- Dispatch events produced by one iteration of `Device.Listen`.  A
`press`/`release` event stands for the corresponding `input.press` /
`input.release` call on the slot with the given index (which fans out the
registered callbacks); `rotate`, `touch` and `swipe` stand for the
corresponding handler dispatches. -/
inductive sdEvent where
  | press (slot : Nat) (t : Nat)
  | release (slot : Nat) (t : Nat)
  | rotate (slot : Nat) (delta : Int)
  | touch (ty : Nat) (x y : Nat)
  | swipe (x1 y1 x2 y2 : Nat)
  deriving DecidableEq, Repr

/-- The diff loop of `Device.Listen` (shared by the key/touch-point path
and the dial press path): walk the freshly extracted state bytes with
index `i0`, skip bytes equal to the previous snapshot, skip indices
beyond the slot table, call `press` on a non-zero byte and `release` on a
zero byte.  Slots are mutated in place in Go; here the updated table is
threaded through. -/
def diffGo (inputs : List inputState) (snap : List Nat) (t : Nat) :
    Nat → List Nat → List inputState × List sdEvent
  | _, [] => (inputs, [])
  | i, st :: rest =>
      if st = snap.getD i 0 then
        diffGo inputs snap t (i + 1) rest
      else if i < inputs.length then
        let inputs' :=
          if 0 < st then
            inputs.set i (pressState (inputs.getD i inputInit) t)
          else
            inputs.set i (releaseState (inputs.getD i inputInit) t)
        let ev := if 0 < st then sdEvent.press i t else sdEvent.release i t
        let res := diffGo inputs' snap t (i + 1) rest
        (res.1, ev :: res.2)
      else
        diffGo inputs snap t (i + 1) rest

/-- The dial rotation loop of `Device.Listen` (report sub-type 1): a
non-zero byte is a signed rotation delta for the dial at that index,
skipped when the index is beyond the dial slot table. -/
def rotateGo (numDialInputs : Nat) : Nat → List Nat → List sdEvent
  | _, [] => []
  | i, st :: rest =>
      if numDialInputs ≤ i then
        rotateGo numDialInputs (i + 1) rest
      else if st ≠ 0 then
        sdEvent.rotate i (if st < 128 then (st : Int) else (st : Int) - 256) ::
          rotateGo numDialInputs (i + 1) rest
      else
        rotateGo numDialInputs (i + 1) rest

/-- Go `int(hi)<<8 | int(lo)`: the touch-strip 16-bit coordinate decode,
with `hi` the byte at the higher offset. -/
def dec16 (hi lo : Nat) : Nat :=
  hi <<< 8 ||| lo

/-- Mutable listener state of one open device: the key/touch-point slot
table (`d.inputs`), the dial slot table (`d.dialInputs`), whether the
touch-strip input was created (`d.touchStripInput != nil`), and the two
snapshots (`d.keyStates`, `d.dialStates`). -/
structure listenState where
  inputs : List inputState
  dialInputs : List inputState
  tsPresent : Bool
  keySnapshot : List Nat
  dialSnapshot : List Nat
  deriving DecidableEq, Repr

/-- Outcome of one iteration of the `Device.Listen` polling loop: either
the loop returns an error (`abort`), or it dispatches a list of events
and continues with an updated state. -/
inductive listenResult where
  | abort (e : sdError)
  | cont (st : listenState) (evs : List sdEvent)
  deriving DecidableEq, Repr

/-- The key/touch-point byte extraction of `Device.Listen`:
`buf[keyStart : keyStart+keyCount]`, with
`buf[touchPointStart : touchPointStart+touchPointCount]` appended when
touch points exist.  (The transport delivers fixed-length reports, so the
slice bounds always hold; `take`/`drop` agree with the Go slices under
the length hypotheses carried by the theorems below.) -/
def extractKeyStates (m : modelInfo) (buf : List Nat) : List Nat :=
  (buf.take (m.keyStart + m.keyCount)).drop m.keyStart ++
    (if 0 < m.touchPointCount then
      (buf.take (m.touchPointStart + m.touchPointCount)).drop m.touchPointStart
    else [])

/-- One iteration of the `Device.Listen` polling loop.  `read` is the
result of `dev.GetInputReport()`: `none` for an I/O failure, otherwise
the transport report id and the payload.  The body follows the Go source:
the id must be 1; payload byte 0 = 2 selects the touch-strip branch on
models with a touch strip (sub-type byte 3: 1 short touch, 2 long touch,
3 swipe, with minimum lengths 9 and 13); payload byte 0 = 3 selects the
dial branch on models with dials (sub-type byte 3: 0 press/release diff,
1 rotation deltas); anything else is diffed as key/touch-point states. -/
def listenIter (m : modelInfo) (st : listenState)
    (read : Option (Nat × List Nat)) (t : Nat) : listenResult :=
  match read with
  | none => .abort .ioReadFailed
  | some (id, buf) =>
      if id ≠ 1 then
        .abort (.unexpectedReportId id)
      else if buf.getD 0 0 = 2 ∧ m.hasTouchStrip = true then
        if st.tsPresent = false then
          .cont st []
        else
          match buf.getD 3 0 with
          | 1 =>
              if buf.length < 9 then
                .cont st []
              else
                .cont st [.touch 1 (dec16 (buf.getD 6 0) (buf.getD 5 0))
                                  (dec16 (buf.getD 8 0) (buf.getD 7 0))]
          | 2 =>
              if buf.length < 9 then
                .cont st []
              else
                .cont st [.touch 2 (dec16 (buf.getD 6 0) (buf.getD 5 0))
                                  (dec16 (buf.getD 8 0) (buf.getD 7 0))]
          | 3 =>
              if buf.length < 13 then
                .cont st []
              else
                .cont st [.swipe (dec16 (buf.getD 6 0) (buf.getD 5 0))
                                 (dec16 (buf.getD 8 0) (buf.getD 7 0))
                                 (dec16 (buf.getD 10 0) (buf.getD 9 0))
                                 (dec16 (buf.getD 12 0) (buf.getD 11 0))]
          | _ => .cont st []
      else if buf.getD 0 0 = 3 ∧ 0 < m.dialCount then
        let dialStates := (buf.take (m.dialStart + m.dialCount)).drop m.dialStart
        match buf.getD 3 0 with
        | 0 =>
            let res := diffGo st.dialInputs st.dialSnapshot t 0 dialStates
            .cont { st with dialInputs := res.1, dialSnapshot := dialStates } res.2
        | 1 =>
            .cont st (rotateGo st.dialInputs.length 0 dialStates)
        | _ => .cont st []
      else
        let states := extractKeyStates m buf
        let res := diffGo st.inputs st.keySnapshot t 0 states
        .cont { st with inputs := res.1, keySnapshot := states } res.2

/-- One output-report page produced by `imageSend`: the header after the
model's update callback ran, the payload chunk, the `last` flag passed to
the callback, and the full zero-padded report written to the device. -/
structure sdPage where
  hdr : List Nat
  chunk : List Nat
  last : Nat
  report : List Nat
  deriving DecidableEq, Repr

/-- The page loop of `imageSend` (`image.go`).  All of `start`, `end`,
the report length and the header length are Go `uint16` values, so every
arithmetic step is taken modulo 65536, exactly as in the source:
`end = start + L - len(hdr)`; if `end >= uint16(len(imgData))` the chunk
is the final one and `last = 1`; the chunk is `imgData[start:end]` (a
violated slice bound is a Go panic, modelled as `none`); the callback
updates the header in place (same slice, so the same length); the report
is header ++ chunk zero-padded to `L`; then `start += L - len(hdr)` and
`page++` (a `byte`).  The loop runs while `last == 0`; `fuel` bounds the
recursion and is chosen (in `imageSend`) above the worst-case number of
iterations of a terminating run. -/
def imageSendLoop (L : Nat) (imgData : List Nat)
    (cb : List Nat → Nat → Nat → Nat → List Nat) :
    Nat → Nat → Nat → List Nat → Option (List sdPage)
  | 0, _, _, _ => none
  | fuel + 1, start, page, hdr =>
      let c := (L + 65536 - hdr.length % 65536) % 65536
      let l := imgData.length % 65536
      let e0 := (start + c) % 65536
      let e := if l ≤ e0 then l else e0
      let last := if l ≤ e0 then 1 else 0
      if start ≤ e ∧ e ≤ imgData.length then
        let chunk := (imgData.take e).drop start
        let hdr' := cb hdr page last (chunk.length % 65536)
        let payload := hdr' ++ chunk
        let report :=
          payload ++ List.replicate ((L + 65536 - payload.length % 65536) % 65536) 0
        let pg : sdPage := ⟨hdr', chunk, last, report⟩
        if last = 1 then
          some [pg]
        else
          (imageSendLoop L imgData cb fuel ((start + c) % 65536)
            ((page + 1) % 256) hdr').map (pg :: ·)
      else
        none

/-- `imageSend`: the nil-callback check, then the page loop starting at
`start = 0`, `page = 0`.  `L` is `dev.GetOutputReportLength()` (a
`uint16` constant of the transport).  The fuel 65537 is one more than the
number of distinct `uint16` values of `start`, enough for any terminating
run. -/
def imageSend (L : Nat) (hdr : List Nat) (imgData : List Nat)
    (cb : Option (List Nat → Nat → Nat → Nat → List Nat)) :
    Except sdError (Option (List sdPage)) :=
  match cb with
  | none => .error .updateCallbackNotSet
  | some cb => .ok (imageSendLoop L imgData cb 65537 0 0 hdr)

/-- An RGBA sample as Go's `color.Color.RGBA()` yields it (16-bit
components). -/
structure pixColor where
  r : Nat
  g : Nat
  b : Nat
  a : Nat
  deriving DecidableEq, Repr

/-- The BMP-path quantization of `genImage`: keep the low byte of each
channel (Go's `byte(r)` conversion) and force full opacity. -/
def bmpQuant (c : pixColor) : pixColor :=
  ⟨c.r % 256, c.g % 256, c.b % 256, 0xff⟩

/-- The destination canvas built by `genImage`'s pixel loop: a partial
map from destination coordinates to the color passed to `final.Set`. -/
def pixCanvas : Type := Nat × Nat → Option pixColor

/-- The empty (zero-initialized) canvas. -/
def emptyCanvas : pixCanvas := fun _ => none

/-- One iteration of `genImage`'s pixel loop on the scaled canvas of size
`W × H` rooted at the origin (as at every call site).  Iteration `i`
visits `x = i / H`, `y = i % H` (x is the outer loop).  The destination
coordinate is remapped per the transform bits in source order:
flip-horizontal mirrors x, flip-vertical mirrors y, rotate-90 requires a
square canvas (otherwise `ErrImageInvalid`) and maps `(x, y)` to
`(y, W-1-x)`.  On the BMP format the color is quantized.  `final.Set`
ignores out-of-range coordinates. -/
def genStep (W H ifmt transform : Nat) (px : Nat → Nat → pixColor)
    (i : Nat) (canvas : pixCanvas) : Except sdError pixCanvas :=
  let x := i / H
  let y := i % H
  let xd0 := if transform &&& imageTransformFlipHorizontal =
      imageTransformFlipHorizontal then W - 1 - x else x
  let yd0 := if transform &&& imageTransformFlipVertical =
      imageTransformFlipVertical then H - 1 - y else y
  if transform &&& imageTransformRotate90 = imageTransformRotate90 then
    if W ≠ H then
      .error .imageInvalid
    else
      let xd := yd0
      let yd := W - 1 - xd0
      let c := px x y
      let c' := if ifmt = imageFormatBMP then bmpQuant c else c
      if xd < W ∧ yd < H then
        .ok (fun p => if p = (xd, yd) then some c' else canvas p)
      else
        .ok canvas
  else
    let c := px x y
    let c' := if ifmt = imageFormatBMP then bmpQuant c else c
    if xd0 < W ∧ yd0 < H then
      .ok (fun p => if p = (xd0, yd0) then some c' else canvas p)
    else
      .ok canvas

/-- The full pixel loop of `genImage`: iterations `0 .. n-1` in source
order (`n = W * H`). -/
def genLoop (W H ifmt transform : Nat) (px : Nat → Nat → pixColor) :
    Nat → Except sdError pixCanvas
  | 0 => .ok emptyCanvas
  | n + 1 =>
      match genLoop W H ifmt transform px n with
      | .error e => .error e
      | .ok canvas => genStep W H ifmt transform px n canvas

/-- The encoded output of `genImage`: the wire format together with the
final canvas.  The BMP and JPEG encoders of the Go standard/x libraries
fail only on writer errors or negative bounds, so encoding itself is
modelled as always succeeding on a valid format. -/
structure encodedImage where
  fmt : Nat
  canvas : pixCanvas

/-- `genImage` on a `W × H` target rectangle rooted at the origin, for a
source image whose dimensions already match the target (the `draw.Copy`
path), given by the pixel function `px`.  The scaling path
(`draw.BiLinear.Scale` of golang.org/x/image) is an external collaborator
and out of scope.  After the pixel loop the result is encoded as BMP or
JPEG; any other format value is the `default` branch error. -/
def genImage (W H ifmt transform : Nat) (px : Nat → Nat → pixColor) :
    Except sdError encodedImage :=
  match genLoop W H ifmt transform px (W * H) with
  | .error e => .error e
  | .ok canvas =>
      if ifmt = imageFormatBMP ∨ ifmt = imageFormatJPEG then
        .ok ⟨ifmt, canvas⟩
      else
        .error .invalidImageFormat

/-- Go's `int(f)` conversion of a nonnegative-or-negative float:
truncation toward zero. -/
def goTrunc (q : ℚ) : Int :=
  if q < 0 then ⌈q⌉ else ⌊q⌋

/-- `image.Rectangle` with `Int` coordinates (`Min`/`Max` points). -/
structure goRect where
  minX : Int
  minY : Int
  maxX : Int
  maxY : Int
  deriving DecidableEq, Repr

/-- `Rectangle.Dx`. -/
def goRect.Dx (r : goRect) : Int := r.maxX - r.minX

/-- `Rectangle.Dy`. -/
def goRect.Dy (r : goRect) : Int := r.maxY - r.minY

/-- Go's `image.Rect` constructor, which swaps coordinates so that
`Min ≤ Max` holds componentwise. -/
def imageRect (x0 y0 x1 y1 : Int) : goRect :=
  ⟨min x0 x1, min y0 y1, max x0 x1, max y0 y1⟩

/-- Round half to even: the nearest integer to `x`, ties resolved to the
even integer.  This is the rounding rule of IEEE-754 binary64, applied
here to the scaled significand. -/
def rhe (x : ℚ) : ℤ :=
  if x - ⌊x⌋ < 1/2 then ⌊x⌋
  else if (1:ℚ)/2 < x - ⌊x⌋ then ⌊x⌋ + 1
  else if 2 ∣ ⌊x⌋ then ⌊x⌋ else ⌊x⌋ + 1

/-- Rounding of a positive rational to 53 significant bits (round to
nearest, ties to even): the significand `x / 2 ^ (log₂ x - 52)` lies in
`[2^52, 2^53)` and is rounded to an integer. -/
def roundfPos (x : ℚ) : ℚ :=
  (rhe (x / 2 ^ (Int.log 2 x - 52)) : ℚ) * 2 ^ (Int.log 2 x - 52)

/-- Correct rounding of a real (rational) value to a `float64`.  The
exponent range is unbounded, so this agrees with IEEE-754 binary64
exactly whenever no overflow or underflow occurs, which holds for every
value arising from the integer rectangle dimensions considered here
(all intermediate magnitudes lie far inside the normal range). -/
def roundf (x : ℚ) : ℚ :=
  if x < 0 then -roundfPos (-x) else if x = 0 then 0 else roundfPos x

/-- Go `float64(a) / float64(b)`: correctly rounded division. -/
def fdiv (a b : ℚ) : ℚ := roundf (a / b)

/-- Go `float64(a) * float64(b)`: correctly rounded multiplication. -/
def fmul (a b : ℚ) : ℚ := roundf (a * b)

/-- Go `float64(n)` conversion of an integer: correctly rounded. -/
def toF (n : Int) : ℚ := roundf (n : ℚ)

/-- `getScaledRect` (`image.go`): the letterbox computation.  The Go
`float64` ratio arithmetic is modelled by correctly rounded binary64
operations over ℚ (`toF`, `fdiv`, `fmul`), `int(...)` as truncation
toward zero, and Go integer division (`/ 2`) as `Int.tdiv`. -/
def getScaledRect (src dst : goRect) : goRect :=
  let srcRat : ℚ := fdiv (toF src.Dx) (toF src.Dy)
  let dstRat : ℚ := fdiv (toF dst.Dx) (toF dst.Dy)
  if dstRat < srcRat then
    let newHeight : Int := goTrunc (fdiv (toF dst.Dx) srcRat)
    let y0 := dst.minY + Int.tdiv (dst.Dy - newHeight) 2
    imageRect dst.minX y0 dst.maxX (y0 + newHeight)
  else
    let newWidth : Int := goTrunc (fmul (toF dst.Dy) srcRat)
    let x0 := dst.minX + Int.tdiv (dst.Dx - newWidth) 2
    imageRect x0 dst.minY (x0 + newWidth) dst.maxY

theorem sd_getD_set_self {α : Type} :
    ∀ (l : List α) (i : Nat) (x d : α), i < l.length →
      (l.set i x).getD i d = x
  | [], i, x, d, h => absurd h (by simp)
  | a :: l, 0, x, d, _ => rfl
  | a :: l, i + 1, x, d, h =>
      sd_getD_set_self l i x d (by simpa using h)

theorem sd_getD_set_ne {α : Type} :
    ∀ (l : List α) (i j : Nat) (x d : α), i ≠ j →
      (l.set i x).getD j d = l.getD j d
  | [], _, _, _, _, _ => rfl
  | a :: l, 0, 0, x, d, h => absurd rfl h
  | a :: l, 0, j + 1, x, d, _ => rfl
  | a :: l, i + 1, 0, x, d, _ => rfl
  | a :: l, i + 1, j + 1, x, d, h =>
      sd_getD_set_ne l i j x d (fun hij => h (by omega))

/-- C8: a product id that is neither registered nor an alias resolves to
the unsupported-device error; an alias id resolves to the same descriptor
as its canonical id; any vendor id other than Elgato's fails resolution
regardless of product id. -/
theorem c8_modelResolution :
    (∀ vid pid, vid ≠ elgatoVendorID →
      getModel vid pid = .error (.enumNotElgato vid)) ∧
    (∀ pid, models pid = none → modelAliases pid = none →
      getModel elgatoVendorID pid =
        .error (.enumNotSupported elgatoVendorID pid)) ∧
    (getModel elgatoVendorID 0x006d = getModel elgatoVendorID 0x0080 ∧
      getModel elgatoVendorID 0x0080 = .ok mk2Model) := by
  refine ⟨?_, ?_, ?_, ?_⟩
  · intro vid pid hvid
    simp [getModel, hvid]
  · intro pid h1 h2
    simp [getModel, h1, h2]
  · rfl
  · rfl

theorem c8_witness :
    getModel 0 0x0063 = .error (.enumNotElgato 0) ∧
    getModel elgatoVendorID 0x1234 =
      .error (.enumNotSupported elgatoVendorID 0x1234) ∧
    getModel elgatoVendorID 0x006d = getModel elgatoVendorID 0x0080 :=
  ⟨c8_modelResolution.1 0 0x0063 (by decide),
   c8_modelResolution.2.1 0x1234 rfl rfl,
   c8_modelResolution.2.2.1⟩

/-- C10: for every registry model, key ids are 1-based: `validateKey`
(used by `SetKeyImage`, `SetKeyColor` and the rest of the key operations)
and the full `AddKeyHandler` acceptance accept a key id `k` iff
`1 ≤ k ≤ keyCount`; id 0 is always rejected with the invalid-key error
and `keyCount` itself is the largest accepted id. -/
theorem c10_keyIdsOneBased :
    ∀ pid m, models pid = some m →
      (∀ k, k < 256 →
        (exceptOk (validateKey m k) = true ↔ 1 ≤ k ∧ k ≤ m.keyCount)) ∧
      validateKey m 0 = .error (.keyInvalid 0) ∧
      exceptOk (validateKey m m.keyCount) = true ∧
      (∀ k, k < 256 →
        (exceptOk (addKeyHandlerCheck m k true) = true ↔
          1 ≤ k ∧ k ≤ m.keyCount)) := by
  intro pid m h
  unfold models at h
  split at h
  · injection h with h; subst h; decide
  · injection h with h; subst h; decide
  · injection h with h; subst h; decide
  · injection h with h; subst h; decide
  · exact absurd h (by simp)

theorem c10_witness :
    exceptOk (validateKey miniModel 3) = true ∧
    validateKey miniModel 0 = .error (.keyInvalid 0) ∧
    exceptOk (validateKey miniModel 6) = true ∧
    exceptOk (addKeyHandlerCheck miniModel 6 true) = true :=
  have h := c10_keyIdsOneBased 0x0063 miniModel rfl
  ⟨(h.1 3 (by decide)).mpr (by decide), h.2.1, h.2.2.1,
   (h.2.2.2 6 (by decide)).mpr (by decide)⟩

/-- C9: `release` on a slot already in the released state is a no-op (the
channel is not closed again); the first release after a press records the
release timestamp, computes `duration = release - press`, and closes the
per-press notification channel exactly once. -/
theorem c9_releaseOnce :
    (∀ s t, s.released ≠ none → releaseState s t = s) ∧
    (∀ s t1 t2 t3,
      (releaseState (pressState s t1) t2).released = some t2 ∧
      (releaseState (pressState s t1) t2).duration =
        (t2 : Int) - (t1 : Int) ∧
      (pressState s t1).chanCloses = 0 ∧
      (releaseState (pressState s t1) t2).chanCloses = 1 ∧
      (releaseState (pressState s t1) t2).chanClosed = true ∧
      releaseState (releaseState (pressState s t1) t2) t3 =
        releaseState (pressState s t1) t2) := by
  constructor
  · intro s t h
    unfold releaseState
    cases hs : s.released with
    | none => exact absurd hs h
    | some u => rfl
  · intro s t1 t2 t3
    simp [pressState, releaseState]

theorem c9_witness :
    releaseState ⟨1, true, 1, none, some 5, 2⟩ 9 = ⟨1, true, 1, none, some 5, 2⟩ ∧
    (releaseState (pressState inputInit 3) 7).duration = 4 ∧
    (releaseState (pressState inputInit 3) 7).chanCloses = 1 :=
  have h1 := c9_releaseOnce.1 ⟨1, true, 1, none, some 5, 2⟩ 9 (by simp)
  have h2 := c9_releaseOnce.2 inputInit 3 7 0
  ⟨h1, h2.2.1.trans (by decide), h2.2.2.2.1⟩

/-- A closed device (both open flags false). -/
def closedDevice : DeviceM := ⟨mk2Model, false, false, false⟩

/-- C4 counterexample: on a closed device, `AddKeyHandler` with a valid
key and non-nil handler succeeds (it never checks the open flag), and
`GetKeyCount` returns the key count with no error (its signature has no
error result) — contradicting "every public operation other than Open
returns the already-closed error". -/
theorem c4_cex :
    closedDevice.isOpen = false ∧
    exceptOk (addKeyHandler closedDevice 1 true) = true ∧
    getKeyCount closedDevice = 15 := by
  decide

/-- C4 (amended): on a device that is not open, the operations that touch
the transport — Close, GetFirmwareVersion, Reset, SetBrightness,
SetKeyImage, Listen — fail with the already-closed error; handler
registration only validates its arguments and succeeds regardless of the
open flag, and the count getters return the descriptor constants without
any error. -/
theorem c4_closedDeviceOps :
    ∀ d : DeviceM, d.isOpen = false →
      closeDevice d = .error .deviceIsClosed ∧
      getFirmwareVersion d = .error .deviceIsClosed ∧
      resetDevice d = .error .deviceIsClosed ∧
      (∀ p, setBrightness d p = .error .deviceIsClosed) ∧
      (∀ k, setKeyImageOp d k = .error .deviceIsClosed) ∧
      listenEntry d = .error .deviceIsClosed ∧
      (0 < d.model.keyCount → d.model.keyCount < 255 →
        exceptOk (addKeyHandler d 1 true) = true) ∧
      getKeyCount d = d.model.keyCount := by
  intro d h
  have hv : validateOpen d = .error .deviceIsClosed := by
    simp [validateOpen, h]
  refine ⟨?_, ?_, ?_, ?_, ?_, ?_, ?_, rfl⟩
  · simp [closeDevice, hv]
  · simp [getFirmwareVersion, hv]
  · simp [resetDevice, hv]
  · intro p; simp [setBrightness, hv]
  · intro k; simp [setKeyImageOp, hv]
  · simp [listenEntry, hv]
  · intro h1 h2
    have hk : (1 + d.model.keyCount) % 256 = 1 + d.model.keyCount :=
      Nat.mod_eq_of_lt (by omega)
    have hval : validateKey d.model 1 = .ok () := by
      simp [validateKey, hk]
      omega
    have hmem : 1 ∈ keySlotIds d.model := by
      unfold keySlotIds
      exact List.mem_map.mpr ⟨0, List.mem_range.mpr h1, rfl⟩
    simp [addKeyHandler, addKeyHandlerCheck, hval, hmem, exceptOk]

theorem c4_witness :
    closeDevice closedDevice = .error .deviceIsClosed ∧
    setBrightness closedDevice 50 = .error .deviceIsClosed ∧
    exceptOk (addKeyHandler closedDevice 1 true) = true ∧
    getKeyCount closedDevice = 15 :=
  have h := c4_closedDeviceOps closedDevice (by decide)
  ⟨h.1, h.2.2.2.1 50, h.2.2.2.2.2.2.1 (by decide) (by decide), h.2.2.2.2.2.2.2⟩

theorem diffGo_agree :
    ∀ (cur : List Nat) (i0 : Nat) (inputs : List inputState)
      (snap : List Nat) (t : Nat),
      (∀ j, j < cur.length → cur.getD j 0 = snap.getD (i0 + j) 0) →
      diffGo inputs snap t i0 cur = (inputs, [])
  | [], _, _, _, _, _ => rfl
  | st :: rest, i0, inputs, snap, t, h => by
      have h0 : st = snap.getD i0 0 := by
        have h0 := h 0 (by simp)
        simpa using h0
      unfold diffGo
      rw [if_pos h0]
      exact diffGo_agree rest (i0 + 1) inputs snap t (fun j hj => by
        have hj1 := h (j + 1) (by simpa using Nat.succ_lt_succ hj)
        have he : i0 + (j + 1) = i0 + 1 + j := by omega
        rw [List.getD_cons_succ, he] at hj1
        exact hj1)

theorem diffGo_single :
    ∀ (cur : List Nat) (i0 i : Nat) (inputs : List inputState)
      (snap : List Nat) (t : Nat),
      i0 ≤ i → i - i0 < cur.length →
      (∀ j, j < cur.length → i0 + j ≠ i → cur.getD j 0 = snap.getD (i0 + j) 0) →
      cur.getD (i - i0) 0 ≠ snap.getD i 0 →
      i < inputs.length →
      diffGo inputs snap t i0 cur =
        (inputs.set i
          (if 0 < cur.getD (i - i0) 0 then
            pressState (inputs.getD i inputInit) t
          else
            releaseState (inputs.getD i inputInit) t),
         [if 0 < cur.getD (i - i0) 0 then sdEvent.press i t
          else sdEvent.release i t])
  | [], i0, i, inputs, snap, t, hle, hlt, _, _, _ => absurd hlt (by simp)
  | st :: rest, i0, i, inputs, snap, t, hle, hlt, hagree, hdiff, hlen => by
      rcases Nat.eq_or_lt_of_le hle with heq | hlt2
      · subst heq
        have hz : i0 - i0 = 0 := by omega
        rw [hz, List.getD_cons_zero] at hdiff ⊢
        unfold diffGo
        rw [if_neg hdiff, if_pos hlen]
        have hag : ∀ ins : List inputState,
            diffGo ins snap t (i0 + 1) rest = (ins, []) := fun ins =>
          diffGo_agree rest (i0 + 1) ins snap t (fun j hj => by
            have hj1 := hagree (j + 1) (by simpa using Nat.succ_lt_succ hj)
              (by omega)
            have he : i0 + (j + 1) = i0 + 1 + j := by omega
            rw [List.getD_cons_succ, he] at hj1
            exact hj1)
        by_cases hst : 0 < st
        · simp [if_pos hst, hag]
        · simp [if_neg hst, hag]
      · have h0 : st = snap.getD i0 0 := by
          have h0 := hagree 0 (by simp) (by omega)
          simpa using h0
        have hsub : i - i0 = (i - (i0 + 1)) + 1 := by omega
        rw [hsub, List.getD_cons_succ] at hdiff ⊢
        unfold diffGo
        rw [if_pos h0]
        have hlc : i - (i0 + 1) < rest.length := by
          have hone : (st :: rest).length = rest.length + 1 := by simp
          omega
        exact diffGo_single rest (i0 + 1) i inputs snap t (by omega) hlc
          (fun j hj hne => by
            have hj1 := hagree (j + 1) (by simpa using Nat.succ_lt_succ hj)
              (by omega)
            have he : i0 + (j + 1) = i0 + 1 + j := by omega
            rw [List.getD_cons_succ, he] at hj1
            exact hj1)
          hdiff hlen

/-- C2: for an input-slot index `i`, a report whose monitored byte at `i`
rises from 0 to a non-zero value while all other bytes match the snapshot
dispatches exactly one press on slot `i`; the following report dropping
the byte back to 0 dispatches exactly one matching release, after which
the slot's computed hold duration is `t2 - t1 ≥ 0`; a report whose
monitored bytes all equal the previous snapshot dispatches nothing. -/
theorem c2_inputDiffing :
    ∀ (inputs : List inputState) (prev : List Nat) (i v t1 t2 : Nat),
      i < inputs.length → i < prev.length → prev.getD i 0 = 0 → 0 < v →
      t1 ≤ t2 →
      (∀ t, diffGo inputs prev t 0 prev = (inputs, [])) ∧
      diffGo inputs prev t1 0 (prev.set i v) =
        (inputs.set i (pressState (inputs.getD i inputInit) t1),
         [sdEvent.press i t1]) ∧
      diffGo (inputs.set i (pressState (inputs.getD i inputInit) t1))
          (prev.set i v) t2 0 prev =
        ((inputs.set i (pressState (inputs.getD i inputInit) t1)).set i
          (releaseState (pressState (inputs.getD i inputInit) t1) t2),
         [sdEvent.release i t2]) ∧
      (releaseState (pressState (inputs.getD i inputInit) t1) t2).duration =
        (t2 : Int) - (t1 : Int) ∧
      0 ≤ (releaseState (pressState (inputs.getD i inputInit) t1) t2).duration := by
  intro inputs prev i v t1 t2 hi hip hzero hv ht
  refine ⟨?_, ?_, ?_, ?_, ?_⟩
  · intro t
    exact diffGo_agree prev 0 inputs prev t (fun j hj => by simp)
  · have h := diffGo_single (prev.set i v) 0 i inputs prev t1 (Nat.zero_le i)
      (by simpa using hip)
      (fun j hj hne => by
        rw [Nat.zero_add]
        exact sd_getD_set_ne prev i j v 0 (by omega))
      (by
        rw [Nat.sub_zero, sd_getD_set_self prev i v 0 hip, hzero]
        omega)
      hi
    rw [Nat.sub_zero, sd_getD_set_self prev i v 0 hip] at h
    rw [h]
    simp only [if_pos hv]
  · have h := diffGo_single prev 0 i
      (inputs.set i (pressState (inputs.getD i inputInit) t1))
      (prev.set i v) t2 (Nat.zero_le i) (by simpa using hip)
      (fun j hj hne => by
        rw [Nat.zero_add]
        exact (sd_getD_set_ne prev i j v 0 (by omega)).symm)
      (by
        rw [Nat.sub_zero, hzero, sd_getD_set_self prev i v 0 hip]
        omega)
      (by simpa using hi)
    rw [Nat.sub_zero, hzero] at h
    rw [h,
      sd_getD_set_self inputs i (pressState (inputs.getD i inputInit) t1)
        inputInit hi]
    simp
  · simp [pressState, releaseState]
  · simp [pressState, releaseState]
    omega

theorem c2_witness :
    diffGo [inputInit, inputInit] [0, 0] 7 0 [0, 0] =
      ([inputInit, inputInit], []) ∧
    diffGo [inputInit, inputInit] [0, 0] 10 0 ([0, 0].set 1 1) =
      ([inputInit, inputInit].set 1
        (pressState ([inputInit, inputInit].getD 1 inputInit) 10),
       [sdEvent.press 1 10]) ∧
    (releaseState (pressState ([inputInit, inputInit].getD 1 inputInit) 10)
      12).duration = 2 :=
  have h := c2_inputDiffing [inputInit, inputInit] [0, 0] 1 1 10 12
    (by decide) (by decide) (by decide) (by decide) (by decide)
  ⟨h.1 7, h.2.1, by rw [h.2.2.2.1]; decide⟩

/-- An empty listener state (no slot tables, no touch-strip input). -/
def listenState0 : listenState := ⟨[], [], false, [], []⟩

/-- A listener state with the touch-strip input created. -/
def listenStateTS : listenState := ⟨[], [], true, [], []⟩

/-- C3 counterexample: reading a report whose transport report id is 2
(not the recognized id 1) makes the polling loop return an
unexpected-report-id error — it aborts rather than continuing without
error as the claim states, and this abort is not an I/O failure of the
read itself. -/
theorem c3_cex :
    listenIter mk2Model listenState0 (some (2, [])) 0 =
      .abort (.unexpectedReportId 2) ∧
    listenIter mk2Model listenState0 (some (2, [])) 0 ≠
      .cont listenState0 [] ∧
    sdError.unexpectedReportId 2 ≠ sdError.ioReadFailed := by
  decide

/-- C3 (amended): an in-payload selector that matches no active
capability or sub-type produces no dispatch and no error (the loop
continues with unchanged state): an unknown touch-strip sub-type, a
touch-strip report before the touch-strip input exists, and an unknown
dial sub-type are all ignored.  An I/O failure of the read aborts the
loop with the propagated error; in addition, a transport-level report id
other than 1 aborts the loop with the unexpected-report-id error. -/
theorem c3_unmatchedReports :
    (∀ m st t, listenIter m st none t = .abort .ioReadFailed) ∧
    (∀ m st t id buf, id ≠ 1 →
      listenIter m st (some (id, buf)) t = .abort (.unexpectedReportId id)) ∧
    (∀ m st t buf, m.hasTouchStrip = true → buf.getD 0 0 = 2 →
      st.tsPresent = false →
      listenIter m st (some (1, buf)) t = .cont st []) ∧
    (∀ m st t buf, m.hasTouchStrip = true → buf.getD 0 0 = 2 →
      st.tsPresent = true → buf.getD 3 0 ≠ 1 → buf.getD 3 0 ≠ 2 →
      buf.getD 3 0 ≠ 3 →
      listenIter m st (some (1, buf)) t = .cont st []) ∧
    (∀ m st t buf, buf.getD 0 0 = 3 → 0 < m.dialCount →
      buf.getD 3 0 ≠ 0 → buf.getD 3 0 ≠ 1 →
      listenIter m st (some (1, buf)) t = .cont st []) := by
  refine ⟨?_, ?_, ?_, ?_, ?_⟩
  · intro m st t
    rfl
  · intro m st t id buf h
    simp only [listenIter]
    rw [if_pos h]
  · intro m st t buf h1 h2 h3
    simp only [listenIter]
    rw [if_neg (by decide : ¬(1 : Nat) ≠ 1), if_pos ⟨h2, h1⟩, if_pos h3]
  · intro m st t buf h1 h2 h3 h4 h5 h6
    simp only [listenIter]
    rw [if_neg (by decide : ¬(1 : Nat) ≠ 1), if_pos ⟨h2, h1⟩,
      if_neg (by rw [h3]; simp)]
  · intro m st t buf h1 h2 h3 h4
    simp only [listenIter]
    rw [if_neg (by decide : ¬(1 : Nat) ≠ 1), if_neg (by rw [h1]; simp),
      if_pos ⟨h1, h2⟩]

theorem c3_witness :
    listenIter plusModel listenStateTS none 5 = .abort .ioReadFailed ∧
    listenIter plusModel listenStateTS (some (7, [1, 0])) 5 =
      .abort (.unexpectedReportId 7) ∧
    listenIter plusModel listenState0 (some (1, [2, 0, 0, 1])) 5 =
      .cont listenState0 [] ∧
    listenIter plusModel listenStateTS (some (1, [2, 0, 0, 9])) 5 =
      .cont listenStateTS [] ∧
    listenIter plusModel listenStateTS (some (1, [3, 0, 0, 7])) 5 =
      .cont listenStateTS [] :=
  ⟨c3_unmatchedReports.1 plusModel listenStateTS 5,
   c3_unmatchedReports.2.1 plusModel listenStateTS 5 7 [1, 0] (by decide),
   c3_unmatchedReports.2.2.1 plusModel listenState0 5 [2, 0, 0, 1] rfl rfl rfl,
   c3_unmatchedReports.2.2.2.1 plusModel listenStateTS 5 [2, 0, 0, 9] rfl rfl
     rfl (by decide) (by decide) (by decide),
   c3_unmatchedReports.2.2.2.2 plusModel listenStateTS 5 [3, 0, 0, 7] rfl
     (by decide) (by decide) (by decide)⟩

/-- C6 counterexample: a touch report with payload byte 5 = 1 and byte
6 = 0 dispatches a touch at X = 1 — the 16-bit coordinate is decoded with
the LOW byte at the lower offset (little-endian); under the claimed
big-endian decoding of the bytes at offsets 5..6 the X coordinate would
be 256. -/
theorem c6_cex :
    listenIter plusModel listenStateTS (some (1, [2, 0, 0, 1, 0, 1, 0, 0, 0]))
      0 = .cont listenStateTS [.touch 1 1 0] ∧
    sdEvent.touch 1 1 0 ≠ sdEvent.touch 1 256 0 := by
  decide

/-- C6 (amended): touch-strip reports (payload byte 0 = 2) select the
event by sub-type byte 3 (1 = short touch, 2 = long touch, 3 = swipe);
each coordinate is a 16-bit value decoded little-endian (low byte at the
lower offset: X from bytes 5,6 and Y from bytes 7,8; a swipe carries a
second pair at bytes 9..12); a touch report shorter than 9 bytes or a
swipe report shorter than 13 bytes is dropped with no dispatch and no
error. -/
theorem c6_touchStripDecode :
    (∀ m st t buf, m.hasTouchStrip = true → st.tsPresent = true →
      buf.getD 0 0 = 2 → buf.getD 3 0 = 1 → 9 ≤ buf.length →
      listenIter m st (some (1, buf)) t =
        .cont st [.touch 1 (dec16 (buf.getD 6 0) (buf.getD 5 0))
                          (dec16 (buf.getD 8 0) (buf.getD 7 0))]) ∧
    (∀ m st t buf, m.hasTouchStrip = true → st.tsPresent = true →
      buf.getD 0 0 = 2 → buf.getD 3 0 = 2 → 9 ≤ buf.length →
      listenIter m st (some (1, buf)) t =
        .cont st [.touch 2 (dec16 (buf.getD 6 0) (buf.getD 5 0))
                          (dec16 (buf.getD 8 0) (buf.getD 7 0))]) ∧
    (∀ m st t buf, m.hasTouchStrip = true → st.tsPresent = true →
      buf.getD 0 0 = 2 → buf.getD 3 0 = 3 → 13 ≤ buf.length →
      listenIter m st (some (1, buf)) t =
        .cont st [.swipe (dec16 (buf.getD 6 0) (buf.getD 5 0))
                         (dec16 (buf.getD 8 0) (buf.getD 7 0))
                         (dec16 (buf.getD 10 0) (buf.getD 9 0))
                         (dec16 (buf.getD 12 0) (buf.getD 11 0))]) ∧
    (∀ m st t buf, m.hasTouchStrip = true → st.tsPresent = true →
      buf.getD 0 0 = 2 → (buf.getD 3 0 = 1 ∨ buf.getD 3 0 = 2) →
      buf.length < 9 →
      listenIter m st (some (1, buf)) t = .cont st []) ∧
    (∀ m st t buf, m.hasTouchStrip = true → st.tsPresent = true →
      buf.getD 0 0 = 2 → buf.getD 3 0 = 3 → buf.length < 13 →
      listenIter m st (some (1, buf)) t = .cont st []) ∧
    (∀ hi lo, lo < 256 → dec16 hi lo = 256 * hi + lo) := by
  refine ⟨?_, ?_, ?_, ?_, ?_, ?_⟩
  · intro m st t buf h1 h2 h3 h4 h5
    simp only [listenIter]
    rw [if_neg (by decide : ¬(1 : Nat) ≠ 1), if_pos ⟨h3, h1⟩,
      if_neg (by rw [h2]; simp), h4]
    simp [show ¬buf.length < 9 from by omega]
  · intro m st t buf h1 h2 h3 h4 h5
    simp only [listenIter]
    rw [if_neg (by decide : ¬(1 : Nat) ≠ 1), if_pos ⟨h3, h1⟩,
      if_neg (by rw [h2]; simp), h4]
    simp [show ¬buf.length < 9 from by omega]
  · intro m st t buf h1 h2 h3 h4 h5
    simp only [listenIter]
    rw [if_neg (by decide : ¬(1 : Nat) ≠ 1), if_pos ⟨h3, h1⟩,
      if_neg (by rw [h2]; simp), h4]
    simp [show ¬buf.length < 13 from by omega]
  · intro m st t buf h1 h2 h3 h4 h5
    simp only [listenIter]
    rw [if_neg (by decide : ¬(1 : Nat) ≠ 1), if_pos ⟨h3, h1⟩,
      if_neg (by rw [h2]; simp)]
    rcases h4 with h4 | h4
    · rw [h4]
      simp [h5]
    · rw [h4]
      simp [h5]
  · intro m st t buf h1 h2 h3 h4 h5
    simp only [listenIter]
    rw [if_neg (by decide : ¬(1 : Nat) ≠ 1), if_pos ⟨h3, h1⟩,
      if_neg (by rw [h2]; simp), h4]
    simp [h5]
  · intro hi lo h
    unfold dec16
    have h1 : hi <<< 8 = 2 ^ 8 * hi := by
      rw [Nat.shiftLeft_eq]
      ring
    have h2 : (256 : Nat) * hi = 2 ^ 8 * hi := by norm_num
    rw [h1, h2, ← Nat.mul_add_lt_is_or h]

theorem c6_witness :
    listenIter plusModel listenStateTS
      (some (1, [2, 0, 0, 3, 0, 1, 2, 3, 4, 5, 6, 7, 8])) 9 =
      .cont listenStateTS
        [.swipe (dec16 2 1) (dec16 4 3) (dec16 6 5) (dec16 8 7)] ∧
    listenIter plusModel listenStateTS (some (1, [2, 0, 0, 2, 0, 1, 2])) 9 =
      .cont listenStateTS [] ∧
    dec16 1 2 = 256 * 1 + 2 :=
  ⟨c6_touchStripDecode.2.2.1 plusModel listenStateTS 9
      [2, 0, 0, 3, 0, 1, 2, 3, 4, 5, 6, 7, 8] rfl rfl rfl rfl (by decide),
   c6_touchStripDecode.2.2.2.1 plusModel listenStateTS 9 [2, 0, 0, 2, 0, 1, 2]
      rfl rfl rfl (Or.inr rfl) (by decide),
   c6_touchStripDecode.2.2.2.2.2 1 2 (by decide)⟩

theorem sd_slice_append (l : List Nat) (s e : Nat) (hse : s ≤ e) :
    (l.take e).drop s ++ l.drop e = l.drop s := by
  rw [List.drop_take]
  have h2 : l.drop e = (l.drop s).drop (e - s) := by
    rw [List.drop_drop]
    congr 1
    omega
  rw [h2]
  exact List.take_append_drop (e - s) (l.drop s)

theorem sd_slice_length (l : List Nat) (s e : Nat) (hel : e ≤ l.length) :
    ((l.take e).drop s).length = e - s := by
  rw [List.length_drop, List.length_take, Nat.min_eq_left hel]

theorem imageSendLoop_succ (L : Nat) (imgData : List Nat)
    (cb : List Nat → Nat → Nat → Nat → List Nat)
    (fuel start page : Nat) (hdr : List Nat) (c l e0 : Nat)
    (hc : c = (L + 65536 - hdr.length % 65536) % 65536)
    (hl : l = imgData.length % 65536)
    (he0 : e0 = (start + c) % 65536) :
    imageSendLoop L imgData cb (fuel + 1) start page hdr =
      (let e := if l ≤ e0 then l else e0
       let last := if l ≤ e0 then 1 else 0
       if start ≤ e ∧ e ≤ imgData.length then
         let chunk := (imgData.take e).drop start
         let hdr' := cb hdr page last (chunk.length % 65536)
         let payload := hdr' ++ chunk
         let report := payload ++
           List.replicate ((L + 65536 - payload.length % 65536) % 65536) 0
         if last = 1 then
           some [⟨hdr', chunk, last, report⟩]
         else
           (imageSendLoop L imgData cb fuel e0 ((page + 1) % 256) hdr').map
             (⟨hdr', chunk, last, report⟩ :: ·)
       else none) := by
  subst hc hl he0
  rfl

theorem sd_report_spec (L : Nat) (hdr2 chunk2 : List Nat)
    (hle : hdr2.length + chunk2.length ≤ L) (hL : L < 65536) :
    ((hdr2 ++ chunk2) ++
      List.replicate ((L + 65536 - (hdr2 ++ chunk2).length % 65536) % 65536)
        0).length = L ∧
    (hdr2 ++ chunk2) ++
      List.replicate ((L + 65536 - (hdr2 ++ chunk2).length % 65536) % 65536)
        0 =
      hdr2 ++ chunk2 ++ List.replicate (L - (hdr2 ++ chunk2).length) 0 := by
  have hlen : (hdr2 ++ chunk2).length ≤ L := by
    rw [List.length_append]
    omega
  have hmod : (hdr2 ++ chunk2).length % 65536 = (hdr2 ++ chunk2).length :=
    Nat.mod_eq_of_lt (by omega)
  have hpad : (L + 65536 - (hdr2 ++ chunk2).length % 65536) % 65536 =
      L - (hdr2 ++ chunk2).length := by
    rw [hmod, show L + 65536 - (hdr2 ++ chunk2).length =
      (L - (hdr2 ++ chunk2).length) + 65536 from by omega, Nat.add_mod_right]
    exact Nat.mod_eq_of_lt (by omega)
  constructor
  · rw [List.length_append, hpad, List.length_replicate]
    omega
  · rw [hpad, List.append_assoc]

theorem imageSendLoop_spec (L h0 : Nat) (imgData : List Nat)
    (cb : List Nat → Nat → Nat → Nat → List Nat)
    (hcb : ∀ h p la s, (cb h p la s).length = h.length)
    (hlt : h0 < L) (hL : L < 65536)
    (hbound : imgData.length + (L - h0) ≤ 65535) :
    ∀ (fuel start page : Nat) (hdr : List Nat),
      hdr.length = h0 → start ≤ imgData.length →
      imgData.length - start < fuel →
      ∃ pages,
        imageSendLoop L imgData cb fuel start page hdr = some pages ∧
        (pages.map sdPage.chunk).flatten = imgData.drop start ∧
        (∃ ps pl, pages = ps ++ [pl] ∧ pl.last = 1 ∧ ∀ q ∈ ps, q.last = 0) ∧
        (∀ pg ∈ pages, pg.report.length = L ∧
          pg.report = pg.hdr ++ pg.chunk ++
            List.replicate (L - (pg.hdr ++ pg.chunk).length) 0) := by
  intro fuel
  induction fuel with
  | zero =>
      intro start page hdr hh hs hf
      omega
  | succ fuel ih =>
      intro start page hdr hh hs hf
      have hhdr' : ∀ la sz, (cb hdr page la sz).length = h0 :=
        fun la sz => (hcb hdr page la sz).trans hh
      have hc : ((L : Nat) + 65536 - hdr.length % 65536) % 65536 = L - h0 := by
        rw [hh, Nat.mod_eq_of_lt (show h0 < 65536 by omega),
          show L + 65536 - h0 = (L - h0) + 65536 by omega, Nat.add_mod_right]
        exact Nat.mod_eq_of_lt (by omega)
      have hl : imgData.length % 65536 = imgData.length :=
        Nat.mod_eq_of_lt (by omega)
      have he0 : (start + (L - h0)) % 65536 = start + (L - h0) :=
        Nat.mod_eq_of_lt (by omega)
      rw [imageSendLoop_succ L imgData cb fuel start page hdr (L - h0)
        imgData.length (start + (L - h0)) hc.symm hl.symm he0.symm]
      by_cases hcase : imgData.length ≤ start + (L - h0)
      · simp only [if_pos hcase]
        rw [if_pos ⟨hs, Nat.le_refl _⟩, if_true]
        refine ⟨_, rfl, ?_, ⟨[], _, rfl, rfl, by simp⟩, ?_⟩
        · simp [List.take_length]
        · intro pg hpg
          rw [List.mem_singleton] at hpg
          subst hpg
          have hchunk : ((imgData.take imgData.length).drop start).length =
              imgData.length - start :=
            sd_slice_length imgData start imgData.length (Nat.le_refl _)
          have hle : (cb hdr page 1
              (((imgData.take imgData.length).drop start).length % 65536)).length
              + ((imgData.take imgData.length).drop start).length ≤ L := by
            rw [hhdr', hchunk]
            omega
          exact sd_report_spec L _ _ hle hL
      · simp only [if_neg hcase]
        rw [if_pos ⟨Nat.le_add_right _ _, by omega⟩,
          if_neg (by decide : ¬(0 : Nat) = 1)]
        obtain ⟨pages', h1', h2', ⟨ps', pl', hsp, hlast', hzero'⟩, h4'⟩ :=
          ih (start + (L - h0)) ((page + 1) % 256) _ (hhdr' 0 _) (by omega)
            (by omega)
        subst hsp
        rw [h1']
        simp only [Option.map_some']
        refine ⟨_, rfl, ?_, ?_, ?_⟩
        · rw [List.map_cons, List.flatten_cons, h2']
          exact sd_slice_append imgData start (start + (L - h0))
            (Nat.le_add_right _ _)
        · refine ⟨_ :: ps', pl', (List.cons_append _ _ _).symm, hlast', ?_⟩
          intro q hq
          rcases List.mem_cons.mp hq with hq | hq
          · subst hq
            rfl
          · exact hzero' q hq
        · intro pg hpg
          rcases List.mem_cons.mp hpg with hpg | hpg
          · subst hpg
            have hchunk : ((imgData.take (start + (L - h0))).drop start).length
                = L - h0 := by
              rw [sd_slice_length imgData start (start + (L - h0)) (by omega)]
              omega
            have hle : (cb hdr page 0
                (((imgData.take (start + (L - h0))).drop start).length % 65536)).length
                + ((imgData.take (start + (L - h0))).drop start).length ≤ L := by
              rw [hhdr', hchunk]
              omega
            exact sd_report_spec L _ _ hle hL
          · exact h4' pg hpg

/-- C1 (amended): for every payload, header and output-report capacity
strictly greater than the header length, PROVIDED the payload length plus
the per-page chunk capacity fits the protocol's 16-bit arithmetic
(payload length + (capacity - header length) ≤ 65535, which every
supported model satisfies), `imageSend` emits a page sequence whose
chunks concatenate to the payload, exactly one page carries the last-page
flag and it is the final page sent, and every emitted report is the
header and chunk zero-padded to exactly the fixed output-report
length. -/
theorem c1_pageSplit :
    ∀ (L : Nat) (hdr imgData : List Nat)
      (cb : List Nat → Nat → Nat → Nat → List Nat),
      hdr.length < L → L < 65536 →
      imgData.length + (L - hdr.length) ≤ 65535 →
      (∀ h p la s, (cb h p la s).length = h.length) →
      ∃ pages,
        imageSend L hdr imgData (some cb) = .ok (some pages) ∧
        (pages.map sdPage.chunk).flatten = imgData ∧
        (∃ ps pl, pages = ps ++ [pl] ∧ pl.last = 1 ∧ ∀ q ∈ ps, q.last = 0) ∧
        (∀ pg ∈ pages, pg.report.length = L ∧
          pg.report = pg.hdr ++ pg.chunk ++
            List.replicate (L - (pg.hdr ++ pg.chunk).length) 0) := by
  intro L hdr imgData cb h1 h2 h3 h4
  obtain ⟨pages, hp, hj, hflags, hrep⟩ :=
    imageSendLoop_spec L hdr.length imgData cb h4 h1 h2 h3 65537 0 0 hdr rfl
      (Nat.zero_le _) (by omega)
  refine ⟨pages, ?_, ?_, hflags, hrep⟩
  · simp only [imageSend]
    rw [hp]
  · simpa using hj

theorem c1_witness :
    ∃ pages,
      imageSend 10 [9, 9, 9]
        [1, 2, 3, 4, 5, 6, 7, 8, 9, 10, 11, 12, 13, 14, 15]
        (some (fun h _ _ _ => h)) = .ok (some pages) ∧
      (pages.map sdPage.chunk).flatten =
        [1, 2, 3, 4, 5, 6, 7, 8, 9, 10, 11, 12, 13, 14, 15] ∧
      (∃ ps pl, pages = ps ++ [pl] ∧ pl.last = 1 ∧ ∀ q ∈ ps, q.last = 0) ∧
      (∀ pg ∈ pages, pg.report.length = 10 ∧
        pg.report = pg.hdr ++ pg.chunk ++
          List.replicate (10 - (pg.hdr ++ pg.chunk).length) 0) :=
  c1_pageSplit 10 [9, 9, 9] [1, 2, 3, 4, 5, 6, 7, 8, 9, 10, 11, 12, 13, 14, 15]
    (fun h _ _ _ => h) (by decide) (by decide) (by decide)
    (fun _ _ _ _ => rfl)

theorem imageSendLoop_succ3 (L : Nat) (imgData : List Nat)
    (cb : List Nat → Nat → Nat → Nat → List Nat)
    (fuel start page : Nat) (hdr : List Nat)
    (c l e0 e last : Nat)
    (hc : c = (L + 65536 - hdr.length % 65536) % 65536)
    (hl : l = imgData.length % 65536)
    (he0 : e0 = (start + c) % 65536)
    (he : e = if l ≤ e0 then l else e0)
    (hla : last = if l ≤ e0 then 1 else 0) :
    imageSendLoop L imgData cb (fuel + 1) start page hdr =
      if start ≤ e ∧ e ≤ imgData.length then
        (let chunk := (imgData.take e).drop start
         let hdr2 := cb hdr page last (chunk.length % 65536)
         let report := (hdr2 ++ chunk) ++
           List.replicate ((L + 65536 - (hdr2 ++ chunk).length % 65536) % 65536)
             0
         if last = 1 then
           some [⟨hdr2, chunk, last, report⟩]
         else
           (imageSendLoop L imgData cb fuel e0 ((page + 1) % 256) hdr2).map
             (⟨hdr2, chunk, last, report⟩ :: ·))
      else none := by
  subst hc hl he0 he hla
  rfl

/-- C1 counterexample: the claim quantifies over every payload and every
capacity greater than the header length, but the page arithmetic is
16-bit (`uint16`).  With capacity 40000, an empty header and a
65000-byte payload, the first chunk is bytes [0, 40000) and the second
page computes `end = (40000 + 40000) mod 2^16 = 14464 < start = 40000`,
so the Go slice expression `imgData[start:end]` panics (modelled as
`none`): no report sequence with the claimed properties is emitted at
this input, although the capacity exceeds the header length. -/
theorem c1_cex :
    imageSend 40000 [] (List.replicate 65000 0) (some (fun h _ _ _ => h)) =
      .ok none ∧
    ([] : List Nat).length < 40000 := by
  constructor
  · have hlen : (List.replicate 65000 (0 : Nat)).length = 65000 :=
      List.length_replicate 65000 0
    have h2 : ∀ fuel page,
        imageSendLoop 40000 (List.replicate 65000 0) (fun h _ _ _ => h)
          (fuel + 1) 40000 page [] = none := by
      intro fuel page
      have ha1 : (40000 : Nat) =
          (40000 + 65536 - ([] : List Nat).length % 65536) % 65536 := by
        norm_num
      have ha2 : (65000 : Nat) = (List.replicate 65000 (0 : Nat)).length %
          65536 := by
        rw [hlen, Nat.mod_eq_of_lt (by norm_num)]
      have ha3 : (14464 : Nat) = (40000 + 40000) % 65536 := by norm_num
      have ha4 : (14464 : Nat) =
          if (65000 : Nat) ≤ 14464 then 65000 else 14464 := by norm_num
      have ha5 : (0 : Nat) = if (65000 : Nat) ≤ 14464 then 1 else 0 := by
        norm_num
      rewrite [imageSendLoop_succ3 40000 (List.replicate 65000 0)
        (fun h _ _ _ => h) fuel 40000 page [] 40000 65000 14464 14464 0
        ha1 ha2 ha3 ha4 ha5]
      rewrite [if_neg (fun hcon => absurd hcon.1 (by norm_num))]
      rfl
    have h1 : imageSendLoop 40000 (List.replicate 65000 0)
        (fun h _ _ _ => h) 65537 0 0 [] = none := by
      have ha1 : (40000 : Nat) =
          (40000 + 65536 - ([] : List Nat).length % 65536) % 65536 := by
        norm_num
      have ha2 : (65000 : Nat) = (List.replicate 65000 (0 : Nat)).length %
          65536 := by
        rw [hlen, Nat.mod_eq_of_lt (by norm_num)]
      have ha3 : (40000 : Nat) = (0 + 40000) % 65536 := by norm_num
      have ha4 : (40000 : Nat) =
          if (65000 : Nat) ≤ 40000 then 65000 else 40000 := by norm_num
      have ha5 : (0 : Nat) = if (65000 : Nat) ≤ 40000 then 1 else 0 := by
        norm_num
      rewrite [show (65537 : Nat) = 65536 + 1 from rfl,
        imageSendLoop_succ3 40000 (List.replicate 65000 0)
          (fun h _ _ _ => h) 65536 0 0 [] 40000 65000 40000 40000 0
          ha1 ha2 ha3 ha4 ha5]
      rewrite [if_pos ⟨Nat.zero_le _, by rw [hlen]; norm_num⟩,
        if_neg (by decide : ¬(0 : Nat) = 1)]
      show (imageSendLoop 40000 (List.replicate 65000 0) (fun h _ _ _ => h)
        65536 40000 ((0 + 1) % 256) []).map _ = none
      rewrite [show (65536 : Nat) = 65535 + 1 from rfl,
        h2 65535 ((0 + 1) % 256)]
      rfl
    simp only [imageSend]
    rw [h1]
  · decide

theorem genLoop_rotate_err (W H ifmt transform : Nat)
    (px : Nat → Nat → pixColor)
    (h1 : transform &&& imageTransformRotate90 = imageTransformRotate90)
    (h2 : W ≠ H) :
    ∀ n, genLoop W H ifmt transform px (n + 1) = .error .imageInvalid := by
  intro n
  induction n with
  | zero =>
      simp [genLoop, genStep, h1, h2]
  | succ n ih =>
      unfold genLoop
      rw [ih]

theorem genStep_rotsq (W ifmt : Nat) (px : Nat → Nat → pixColor)
    (hW : 1 ≤ W) (i : Nat) (canvas : pixCanvas) :
    genStep W W ifmt imageTransformRotate90 px i canvas =
      .ok (fun p => if p = (i % W, W - 1 - i / W) then
        some (if ifmt = imageFormatBMP then bmpQuant (px (i / W) (i % W))
          else px (i / W) (i % W))
        else canvas p) := by
  simp only [genStep]
  rw [if_neg (by decide : ¬(imageTransformRotate90 &&&
      imageTransformFlipHorizontal = imageTransformFlipHorizontal)),
    if_neg (by decide : ¬(imageTransformRotate90 &&&
      imageTransformFlipVertical = imageTransformFlipVertical)),
    if_pos (by decide : imageTransformRotate90 &&& imageTransformRotate90 =
      imageTransformRotate90),
    if_neg (show ¬(W ≠ W) from fun h => h rfl),
    if_pos ⟨Nat.mod_lt _ (by omega),
      (Nat.sub_le (W - 1) (i / W)).trans_lt (by omega)⟩]

theorem genLoop_succ_ok (W H ifmt transform : Nat)
    (px : Nat → Nat → pixColor) (n : Nat) (canvas : pixCanvas)
    (h : genLoop W H ifmt transform px n = .ok canvas) :
    genLoop W H ifmt transform px (n + 1) =
      genStep W H ifmt transform px n canvas := by
  unfold genLoop
  rw [h]

theorem genImage_ok (W H ifmt transform : Nat) (px : Nat → Nat → pixColor)
    (canvas : pixCanvas)
    (h : genLoop W H ifmt transform px (W * H) = .ok canvas)
    (hfmt : ifmt = imageFormatBMP ∨ ifmt = imageFormatJPEG) :
    genImage W H ifmt transform px = .ok ⟨ifmt, canvas⟩ := by
  unfold genImage
  simp only [h]
  rw [if_pos hfmt]

theorem genLoop_rotsq (W ifmt : Nat) (px : Nat → Nat → pixColor)
    (hW : 1 ≤ W) :
    ∀ n, n ≤ W * W →
      ∃ canvas, genLoop W W ifmt imageTransformRotate90 px n = .ok canvas ∧
        (1 ≤ n → canvas (0, W - 1) =
          some (if ifmt = imageFormatBMP then bmpQuant (px 0 0)
            else px 0 0)) := by
  intro n
  induction n with
  | zero => exact fun _ => ⟨emptyCanvas, rfl, by omega⟩
  | succ n ih =>
      intro hn
      obtain ⟨canvas, hc, hval⟩ := ih (by omega)
      rw [genLoop_succ_ok W W ifmt imageTransformRotate90 px n canvas hc,
        genStep_rotsq W ifmt px hW n canvas]
      refine ⟨_, rfl, fun _ => ?_⟩
      rcases Nat.eq_zero_or_pos n with hn0 | hn1
      · subst hn0
        simp
      · have hdiv : n / W < W := Nat.div_lt_of_lt_mul (by omega)
        have hne : ((0 : Nat), W - 1) ≠ (n % W, W - 1 - n / W) := by
          intro hcon
          rw [Prod.mk.injEq] at hcon
          have hq : n / W = 0 := by omega
          have hnW : n < W := (Nat.div_eq_zero_iff (by omega)).mp hq
          have hmod : n % W = n := Nat.mod_eq_of_lt hnW
          omega
        rw [if_neg hne]
        exact hval hn1

/-- C5 counterexample: the empty 0×1 target rectangle is non-square, yet
`genImage` with the rotate-90 bit set succeeds on it: the square-canvas
check sits inside the per-pixel loop, which runs zero iterations on an
empty rectangle, so no invalid-image error is ever raised. -/
theorem c5_cex :
    exceptOk (genImage 0 1 imageFormatBMP imageTransformRotate90
      (fun _ _ => ⟨0, 0, 0, 0⟩)) = true ∧
    (0 : Nat) ≠ 1 := by
  constructor
  · rfl
  · decide

/-- C5 (amended): for every source and every non-square target rectangle
with POSITIVE dimensions, requesting the encode with the rotate-90
transform bit set fails with the invalid-image error, for every target
wire format (an empty non-square target is the exception the loop never
checks); for every square target the encode succeeds on both wire
formats, and (for a non-empty square target with the rotate-90 transform)
the top-left source pixel of the pipeline lands at the bottom-left corner
of the output canvas. -/
theorem c5_rotateSquare :
    (∀ W H ifmt transform px,
      transform &&& imageTransformRotate90 = imageTransformRotate90 →
      W ≠ H → 1 ≤ W → 1 ≤ H →
      genImage W H ifmt transform px = .error .imageInvalid) ∧
    (∀ W ifmt px, ifmt = imageFormatBMP ∨ ifmt = imageFormatJPEG → 1 ≤ W →
      ∃ canvas,
        genImage W W ifmt imageTransformRotate90 px = .ok ⟨ifmt, canvas⟩ ∧
        canvas (0, W - 1) =
          some (if ifmt = imageFormatBMP then bmpQuant (px 0 0)
            else px 0 0)) ∧
    (∀ W ifmt px, ifmt = imageFormatBMP ∨ ifmt = imageFormatJPEG →
      exceptOk (genImage W W ifmt imageTransformRotate90 px) = true) := by
  have hB : ∀ W ifmt (px : Nat → Nat → pixColor),
      ifmt = imageFormatBMP ∨ ifmt = imageFormatJPEG → 1 ≤ W →
      ∃ canvas,
        genImage W W ifmt imageTransformRotate90 px = .ok ⟨ifmt, canvas⟩ ∧
        canvas (0, W - 1) =
          some (if ifmt = imageFormatBMP then bmpQuant (px 0 0)
            else px 0 0) := by
    intro W ifmt px hfmt hW
    obtain ⟨canvas, hcv, hval⟩ :=
      genLoop_rotsq W ifmt px hW (W * W) (Nat.le_refl _)
    exact ⟨canvas,
      genImage_ok W W ifmt imageTransformRotate90 px canvas hcv hfmt,
      hval (Nat.mul_pos (by omega) (by omega))⟩
  refine ⟨?_, hB, ?_⟩
  · intro W H ifmt transform px h1 h2 hW hH
    obtain ⟨k, hk⟩ : ∃ k, W * H = k + 1 :=
      ⟨W * H - 1, by
        have := Nat.mul_pos (show 0 < W by omega) (show 0 < H by omega)
        omega⟩
    unfold genImage
    rw [hk, genLoop_rotate_err W H ifmt transform px h1 h2 k]
  · intro W ifmt px hfmt
    rcases Nat.eq_zero_or_pos W with hW0 | hW1
    · subst hW0
      rw [genImage_ok 0 0 ifmt imageTransformRotate90 px emptyCanvas rfl hfmt]
      rfl
    · obtain ⟨canvas, hgi, _⟩ := hB W ifmt px hfmt hW1
      rw [hgi]
      rfl

theorem c5_witness :
    genImage 1 2 imageFormatBMP imageTransformRotate90
      (fun _ _ => ⟨1, 2, 3, 4⟩) = .error .imageInvalid ∧
    (∃ canvas,
      genImage 2 2 imageFormatJPEG imageTransformRotate90
        (fun _ _ => ⟨1, 2, 3, 4⟩) = .ok ⟨imageFormatJPEG, canvas⟩ ∧
      canvas (0, 2 - 1) =
        some (if imageFormatJPEG = imageFormatBMP then
          bmpQuant ((fun _ _ => (⟨1, 2, 3, 4⟩ : pixColor)) 0 0)
          else (fun _ _ => (⟨1, 2, 3, 4⟩ : pixColor)) 0 0)) ∧
    exceptOk (genImage 3 3 imageFormatBMP imageTransformRotate90
      (fun _ _ => ⟨1, 2, 3, 4⟩)) = true :=
  ⟨c5_rotateSquare.1 1 2 imageFormatBMP imageTransformRotate90
     (fun _ _ => ⟨1, 2, 3, 4⟩) (by decide) (by decide) (by decide) (by decide),
   c5_rotateSquare.2.1 2 imageFormatJPEG (fun _ _ => ⟨1, 2, 3, 4⟩)
     (Or.inr rfl) (by decide),
   c5_rotateSquare.2.2 3 imageFormatBMP (fun _ _ => ⟨1, 2, 3, 4⟩)
     (Or.inl rfl)⟩

theorem imageRect_ordered (x0 y0 x1 y1 : Int) (hx : x0 ≤ x1)
    (hy : y0 ≤ y1) :
    imageRect x0 y0 x1 y1 = ⟨x0, y0, x1, y1⟩ := by
  unfold imageRect
  rw [min_eq_left hx, min_eq_left hy, max_eq_right hx, max_eq_right hy]

theorem rhe_close (x : ℚ) : |(rhe x : ℚ) - x| ≤ 1/2 := by
  have h1 : (⌊x⌋ : ℚ) ≤ x := Int.floor_le x
  have h2 : x < ⌊x⌋ + 1 := Int.lt_floor_add_one x
  unfold rhe
  by_cases hc1 : x - ⌊x⌋ < 1/2
  · rw [if_pos hc1, abs_le]
    constructor <;> push_cast <;> linarith
  · rw [if_neg hc1]
    by_cases hc2 : (1:ℚ)/2 < x - ⌊x⌋
    · rw [if_pos hc2, abs_le]
      constructor <;> push_cast <;> linarith
    · rw [if_neg hc2]
      by_cases hd : 2 ∣ ⌊x⌋
      · rw [if_pos hd, abs_le]
        constructor <;> push_cast <;> linarith
      · rw [if_neg hd, abs_le]
        constructor <;> push_cast <;> linarith

theorem rhe_intCast (n : ℤ) : rhe (n : ℚ) = n := by
  unfold rhe
  rw [Int.floor_intCast, if_pos (by norm_num)]

theorem rhe_eval_down (x : ℚ) (n : ℤ) (h1 : (n:ℚ) ≤ x)
    (h2 : x < (n:ℚ) + 1/2) : rhe x = n := by
  have hf : ⌊x⌋ = n := Int.floor_eq_iff.mpr ⟨h1, by linarith⟩
  unfold rhe
  rw [hf, if_pos (by linarith)]

theorem roundfPos_close (x : ℚ) (hx : 0 < x) :
    |roundfPos x - x| ≤ x / 9007199254740992 := by
  have hk1 : (2:ℚ) ^ Int.log 2 x ≤ x := by
    exact_mod_cast Int.zpow_log_le_self (b := 2) one_lt_two hx
  have hp : (0:ℚ) < 2 ^ (Int.log 2 x - 52) := zpow_pos (by norm_num) _
  have hr := rhe_close (x / 2 ^ (Int.log 2 x - 52))
  unfold roundfPos
  have key : (rhe (x / 2 ^ (Int.log 2 x - 52)) : ℚ) * 2 ^ (Int.log 2 x - 52) - x
      = ((rhe (x / 2 ^ (Int.log 2 x - 52)) : ℚ) - x / 2 ^ (Int.log 2 x - 52)) *
        2 ^ (Int.log 2 x - 52) := by
    field_simp
  rw [key, abs_mul, abs_of_pos hp]
  have step : |(rhe (x / 2 ^ (Int.log 2 x - 52)) : ℚ) -
      x / 2 ^ (Int.log 2 x - 52)| * 2 ^ (Int.log 2 x - 52)
      ≤ (1/2) * 2 ^ (Int.log 2 x - 52) :=
    mul_le_mul_of_nonneg_right hr (le_of_lt hp)
  refine step.trans ?_
  have hsub : (2:ℚ) ^ (Int.log 2 x - 52) = 2 ^ Int.log 2 x / 2 ^ (52:ℤ) :=
    zpow_sub₀ (by norm_num) _ _
  rw [hsub]
  have h52 : ((2:ℚ) ^ (52:ℤ)) = 4503599627370496 := by norm_num
  rw [h52]
  linarith

theorem roundf_of_pos (x : ℚ) (hx : 0 < x) : roundf x = roundfPos x := by
  unfold roundf
  rw [if_neg (not_lt.mpr hx.le), if_neg hx.ne']

theorem roundf_pos_bounds (x : ℚ) (hx : 0 < x) :
    x - x / 9007199254740992 ≤ roundf x ∧
      roundf x ≤ x + x / 9007199254740992 := by
  have h := roundfPos_close x hx
  rw [abs_le] at h
  rw [roundf_of_pos x hx]
  constructor <;> linarith [h.1, h.2]

theorem roundf_pos_of_pos (x : ℚ) (hx : 0 < x) : 0 < roundf x := by
  have h := (roundf_pos_bounds x hx).1
  linarith

theorem qlog_eq (x : ℚ) (k : ℤ) (hx : 0 < x) (h1 : (2:ℚ)^k ≤ x)
    (h2 : x < (2:ℚ)^(k+1)) : Int.log 2 x = k := by
  have ha : k ≤ Int.log 2 x :=
    (Int.zpow_le_iff_le_log one_lt_two hx).mp (by exact_mod_cast h1)
  have hb : Int.log 2 x < k + 1 :=
    (Int.lt_zpow_iff_log_lt one_lt_two hx).mp (by exact_mod_cast h2)
  omega

theorem roundfPos_eval (x : ℚ) (k n : ℤ) (hx : 0 < x)
    (h1 : (2:ℚ)^k ≤ x) (h2 : x < (2:ℚ)^(k+1))
    (h3 : rhe (x / 2 ^ (k - 52)) = n) :
    roundfPos x = (n : ℚ) * 2 ^ (k - 52) := by
  unfold roundfPos
  rw [qlog_eq x k hx h1 h2, h3]

theorem roundf_intCast (n : ℤ) (h0 : 0 < n) (h1 : n < 2 ^ 53) :
    roundf (n : ℚ) = (n : ℚ) := by
  have hq0 : (0:ℚ) < (n:ℚ) := by exact_mod_cast h0
  have hk0 : 0 ≤ Int.log 2 (n:ℚ) := by
    rw [Int.log_of_one_le_right _ (by exact_mod_cast h0)]
    exact Int.natCast_nonneg _
  have hk52 : Int.log 2 (n:ℚ) ≤ 52 := by
    by_contra hc
    push_neg at hc
    have hz : (2:ℚ) ^ (53:ℤ) ≤ (2:ℚ) ^ Int.log 2 (n:ℚ) :=
      zpow_le_zpow_right₀ (by norm_num) (by omega)
    have hzl : (2:ℚ) ^ Int.log 2 (n:ℚ) ≤ (n:ℚ) := by
      exact_mod_cast Int.zpow_log_le_self (b := 2) one_lt_two hq0
    have hlt : (n:ℚ) < (2:ℚ) ^ (53:ℤ) := by
      have hstep : (n:ℚ) < ((2:ℤ)^(53:ℕ) : ℚ) := by exact_mod_cast h1
      calc (n:ℚ) < ((2:ℤ)^(53:ℕ) : ℚ) := hstep
        _ = (2:ℚ) ^ (53:ℤ) := by norm_num
    linarith
  have hinv : ((2:ℚ) ^ (52 - Int.log 2 (n:ℚ)).toNat) *
      2 ^ (Int.log 2 (n:ℚ) - 52) = 1 := by
    rw [← zpow_natCast (2:ℚ) (52 - Int.log 2 (n:ℚ)).toNat,
      ← zpow_add₀ (by norm_num : (2:ℚ) ≠ 0),
      Int.toNat_of_nonneg (by omega)]
    have he : 52 - Int.log 2 (n:ℚ) + (Int.log 2 (n:ℚ) - 52) = 0 := by ring
    rw [he, zpow_zero]
  have hkey : (n:ℚ) / 2 ^ (Int.log 2 (n:ℚ) - 52)
      = ((n * 2 ^ (52 - Int.log 2 (n:ℚ)).toNat : ℤ) : ℚ) := by
    push_cast
    rw [div_eq_iff (by positivity), mul_assoc, hinv, mul_one]
  rw [roundf_of_pos _ hq0]
  unfold roundfPos
  rw [hkey, rhe_intCast]
  push_cast
  rw [mul_assoc, hinv, mul_one]

theorem toF_small (n : ℤ) (h0 : 0 < n) (h1 : n < 2 ^ 53) : toF n = (n : ℚ) :=
  roundf_intCast n h0 h1

theorem goTrunc_of_pos (q : ℚ) (h : 0 < q) : goTrunc q = ⌊q⌋ := by
  unfold goTrunc
  rw [if_neg (not_lt.mpr h.le)]

theorem fdiv_newHeight_lt (sx sy dx dy : ℚ) (hsx : 0 < sx) (hsy : 0 < sy)
    (hdx : 0 < dx) (hdy : 0 < dy) (hdyB : dy < 2 ^ 50)
    (hcase : roundf (dx / dy) < roundf (sx / sy)) :
    roundf (dx / roundf (sx / sy)) < dy + 1 := by
  have hsr := roundf_pos_bounds (sx / sy) (div_pos hsx hsy)
  have hdr := roundf_pos_bounds (dx / dy) (div_pos hdx hdy)
  have hsrPos : 0 < roundf (sx / sy) := roundf_pos_of_pos _ (div_pos hsx hsy)
  have hdrPos : 0 < roundf (dx / dy) := roundf_pos_of_pos _ (div_pos hdx hdy)
  have hu := roundf_pos_bounds (dx / roundf (sx / sy))
    (div_pos hdx hsrPos)
  have ha : dx / roundf (sx / sy) ≤ dx / roundf (dx / dy) :=
    div_le_div_of_nonneg_left hdx.le hdrPos hcase.le
  have hlow : 0 < dx / dy - (dx / dy) / 9007199254740992 := by
    have hq := div_pos hdx hdy
    linarith
  have hb : dx / roundf (dx / dy) ≤
      dx / (dx / dy - (dx / dy) / 9007199254740992) :=
    div_le_div_of_nonneg_left hdx.le hlow hdr.1
  have hc : dx / (dx / dy - (dx / dy) / 9007199254740992) =
      dy * 9007199254740992 / 9007199254740991 := by
    rw [div_eq_div_iff hlow.ne' (by norm_num)]
    field_simp
    ring
  linarith [hu.2, ha, hb, hc, hdyB]

theorem fmul_newWidth_lt (sx sy dx dy : ℚ) (hsx : 0 < sx) (hsy : 0 < sy)
    (hdx : 0 < dx) (hdy : 0 < dy) (hdxB : dx < 2 ^ 50)
    (hcase : roundf (sx / sy) ≤ roundf (dx / dy)) :
    roundf (dy * roundf (sx / sy)) < dx + 1 := by
  have hsrPos : 0 < roundf (sx / sy) := roundf_pos_of_pos _ (div_pos hsx hsy)
  have hdr := roundf_pos_bounds (dx / dy) (div_pos hdx hdy)
  have hv := roundf_pos_bounds (dy * roundf (sx / sy)) (mul_pos hdy hsrPos)
  have ha : dy * roundf (sx / sy) ≤ dy * roundf (dx / dy) :=
    mul_le_mul_of_nonneg_left hcase hdy.le
  have hb : dy * roundf (dx / dy) ≤
      dy * (dx / dy + (dx / dy) / 9007199254740992) :=
    mul_le_mul_of_nonneg_left hdr.2 hdy.le
  have hmul : dy * (dx / dy + (dx / dy) / 9007199254740992) =
      dx + dx / 9007199254740992 := by
    field_simp
    ring
  linarith [hv.2, ha, hb, hmul, hdxB]

theorem toF_61 : toF 61 = 61 := by
  have h := toF_small 61 (by norm_num) (by norm_num)
  rw [h]
  norm_num

theorem fdiv_61_7 : fdiv (toF 61) (toF 7) =
    4905706736957147 / 562949953421312 := by
  rw [toF_61, show toF 7 = 7 from by
    rw [toF_small 7 (by norm_num) (by norm_num)]; norm_num]
  unfold fdiv
  rw [roundf_of_pos _ (by norm_num)]
  have hx1 : (61/7 : ℚ) / 2 ^ ((3:ℤ) - 52) = 34339947158700032/7 := by
    norm_num
  rw [roundfPos_eval (61/7) 3 4905706736957147 (by norm_num) (by norm_num)
    (by norm_num)
    (by rw [hx1]; exact rhe_eval_down _ _ (by norm_num) (by norm_num))]
  norm_num

theorem fmul_7_near61 : fmul (toF 7) (4905706736957147 / 562949953421312) =
    8584986789675007 / 140737488355328 := by
  rw [show toF 7 = 7 from by
    rw [toF_small 7 (by norm_num) (by norm_num)]; norm_num]
  unfold fmul
  rw [roundf_of_pos _ (by norm_num)]
  have hx1 : (7 * (4905706736957147 / 562949953421312) : ℚ) /
      2 ^ ((5:ℤ) - 52) = 34339947158700029/4 := by norm_num
  rw [roundfPos_eval _ 5 8584986789675007 (by norm_num) (by norm_num)
    (by norm_num)
    (by rw [hx1]; exact rhe_eval_down _ _ (by norm_num) (by norm_num))]
  norm_num

theorem goTrunc_near61 : goTrunc (8584986789675007 / 140737488355328) = 60 := by
  rw [goTrunc_of_pos _ (by norm_num), Int.floor_eq_iff]
  constructor <;> norm_num

/-- C7: for positive source and destination dimensions below `2^50`, the
letterbox computation under Go's `float64` semantics: when the rounded
source ratio exceeds the rounded destination ratio, the fitted rectangle
spans the full destination width, its height is the truncation of the
correctly rounded `float64` quotient `dst.Dx / srcRatio`, and it is
centered vertically (top gap is the truncated half of the slack, both
gaps are nonnegative and sum to the slack); otherwise it spans the full
destination height with width the truncation of the correctly rounded
`float64` product `dst.Dy * srcRatio`, centered horizontally. -/
theorem c7_letterbox :
    ∀ (src dst r : goRect), 0 < src.Dx → 0 < src.Dy → 0 < dst.Dx →
      0 < dst.Dy → src.Dx < 2 ^ 50 → src.Dy < 2 ^ 50 → dst.Dx < 2 ^ 50 →
      dst.Dy < 2 ^ 50 → r = getScaledRect src dst →
      ((fdiv (toF dst.Dx) (toF dst.Dy) < fdiv (toF src.Dx) (toF src.Dy)) →
        r.minX = dst.minX ∧ r.maxX = dst.maxX ∧
        r.Dy = goTrunc (fdiv (toF dst.Dx) (fdiv (toF src.Dx) (toF src.Dy))) ∧
        r.minY - dst.minY = Int.tdiv (dst.Dy - r.Dy) 2 ∧
        dst.minY ≤ r.minY ∧ r.maxY ≤ dst.maxY ∧
        (r.minY - dst.minY) + (dst.maxY - r.maxY) = dst.Dy - r.Dy) ∧
      (¬(fdiv (toF dst.Dx) (toF dst.Dy) < fdiv (toF src.Dx) (toF src.Dy)) →
        r.minY = dst.minY ∧ r.maxY = dst.maxY ∧
        r.Dx = goTrunc (fmul (toF dst.Dy) (fdiv (toF src.Dx) (toF src.Dy))) ∧
        r.minX - dst.minX = Int.tdiv (dst.Dx - r.Dx) 2 ∧
        dst.minX ≤ r.minX ∧ r.maxX ≤ dst.maxX ∧
        (r.minX - dst.minX) + (dst.maxX - r.maxX) = dst.Dx - r.Dx) := by
  intro src dst r h1 h2 h3 h4 hb1 hb2 hb3 hb4 hr
  have hsxE : toF src.Dx = (src.Dx : ℚ) :=
    toF_small _ h1 (lt_trans hb1 (by norm_num))
  have hsyE : toF src.Dy = (src.Dy : ℚ) :=
    toF_small _ h2 (lt_trans hb2 (by norm_num))
  have hdxE : toF dst.Dx = (dst.Dx : ℚ) :=
    toF_small _ h3 (lt_trans hb3 (by norm_num))
  have hdyE : toF dst.Dy = (dst.Dy : ℚ) :=
    toF_small _ h4 (lt_trans hb4 (by norm_num))
  have hsx' : (0:ℚ) < (src.Dx : ℚ) := by exact_mod_cast h1
  have hsy' : (0:ℚ) < (src.Dy : ℚ) := by exact_mod_cast h2
  have hdx' : (0:ℚ) < (dst.Dx : ℚ) := by exact_mod_cast h3
  have hdy' : (0:ℚ) < (dst.Dy : ℚ) := by exact_mod_cast h4
  have hdxB' : (dst.Dx : ℚ) < 2 ^ 50 := by exact_mod_cast hb3
  have hdyB' : (dst.Dy : ℚ) < 2 ^ 50 := by exact_mod_cast hb4
  have hxle : dst.minX ≤ dst.maxX := by
    have hd : (0 : Int) < dst.maxX - dst.minX := h3
    omega
  have hyle : dst.minY ≤ dst.maxY := by
    have hd : (0 : Int) < dst.maxY - dst.minY := h4
    omega
  have hsrPos : 0 < roundf ((src.Dx : ℚ) / (src.Dy : ℚ)) :=
    roundf_pos_of_pos _ (div_pos hsx' hsy')
  constructor
  · intro hcase
    subst hr
    simp only [getScaledRect, fdiv] at hcase ⊢
    rw [hsxE, hsyE, hdxE, hdyE] at hcase ⊢
    rw [if_pos hcase]
    have hvpos : 0 < roundf ((dst.Dx : ℚ) /
        roundf ((src.Dx : ℚ) / (src.Dy : ℚ))) :=
      roundf_pos_of_pos _ (div_pos hdx' hsrPos)
    have hg : goTrunc (roundf ((dst.Dx : ℚ) /
        roundf ((src.Dx : ℚ) / (src.Dy : ℚ)))) =
        ⌊roundf ((dst.Dx : ℚ) / roundf ((src.Dx : ℚ) / (src.Dy : ℚ)))⌋ :=
      goTrunc_of_pos _ hvpos
    have hH0 : 0 ≤ goTrunc (roundf ((dst.Dx : ℚ) /
        roundf ((src.Dx : ℚ) / (src.Dy : ℚ)))) := by
      rw [hg]
      exact Int.floor_nonneg.mpr hvpos.le
    have hHle : goTrunc (roundf ((dst.Dx : ℚ) /
        roundf ((src.Dx : ℚ) / (src.Dy : ℚ)))) ≤ dst.Dy := by
      rw [hg]
      have hlt := fdiv_newHeight_lt (src.Dx : ℚ) (src.Dy : ℚ) (dst.Dx : ℚ) (dst.Dy : ℚ)
        hsx' hsy' hdx' hdy' hdyB' hcase
      have h2' := Int.floor_lt.mpr (show roundf ((dst.Dx : ℚ) /
          roundf ((src.Dx : ℚ) / (src.Dy : ℚ))) < ((dst.Dy + 1 : ℤ) : ℚ) by
        push_cast
        linarith)
      omega
    set nh := goTrunc (roundf ((dst.Dx : ℚ) /
        roundf ((src.Dx : ℚ) / (src.Dy : ℚ)))) with hnh
    have htdiv : Int.tdiv (dst.Dy - nh) 2 = (dst.Dy - nh) / 2 :=
      Int.tdiv_eq_ediv (by omega) (by omega)
    rw [imageRect_ordered _ _ _ _ hxle (by omega)]
    have hDyrec : (⟨dst.minX, dst.minY + Int.tdiv (dst.Dy - nh) 2, dst.maxX,
        dst.minY + Int.tdiv (dst.Dy - nh) 2 + nh⟩ : goRect).Dy = nh := by
      show dst.minY + Int.tdiv (dst.Dy - nh) 2 + nh -
        (dst.minY + Int.tdiv (dst.Dy - nh) 2) = nh
      omega
    refine ⟨rfl, rfl, hDyrec, ?_, ?_, ?_, ?_⟩
    · rw [hDyrec]
      show dst.minY + Int.tdiv (dst.Dy - nh) 2 - dst.minY =
        Int.tdiv (dst.Dy - nh) 2
      omega
    · show dst.minY ≤ dst.minY + Int.tdiv (dst.Dy - nh) 2
      rw [htdiv]
      omega
    · show dst.minY + Int.tdiv (dst.Dy - nh) 2 + nh ≤ dst.maxY
      rw [htdiv]
      have hdyd : dst.Dy = dst.maxY - dst.minY := rfl
      omega
    · rw [hDyrec]
      show dst.minY + Int.tdiv (dst.Dy - nh) 2 - dst.minY +
        (dst.maxY - (dst.minY + Int.tdiv (dst.Dy - nh) 2 + nh)) =
        dst.Dy - nh
      rw [htdiv]
      have hdyd : dst.Dy = dst.maxY - dst.minY := rfl
      omega
  · intro hcase
    subst hr
    simp only [getScaledRect, fdiv, fmul] at hcase ⊢
    rw [hsxE, hsyE, hdxE, hdyE] at hcase ⊢
    rw [if_neg hcase]
    have hwpos : 0 < roundf ((dst.Dy : ℚ) *
        roundf ((src.Dx : ℚ) / (src.Dy : ℚ))) :=
      roundf_pos_of_pos _ (mul_pos hdy' hsrPos)
    have hg : goTrunc (roundf ((dst.Dy : ℚ) *
        roundf ((src.Dx : ℚ) / (src.Dy : ℚ)))) =
        ⌊roundf ((dst.Dy : ℚ) * roundf ((src.Dx : ℚ) / (src.Dy : ℚ)))⌋ :=
      goTrunc_of_pos _ hwpos
    have hW0 : 0 ≤ goTrunc (roundf ((dst.Dy : ℚ) *
        roundf ((src.Dx : ℚ) / (src.Dy : ℚ)))) := by
      rw [hg]
      exact Int.floor_nonneg.mpr hwpos.le
    have hWle : goTrunc (roundf ((dst.Dy : ℚ) *
        roundf ((src.Dx : ℚ) / (src.Dy : ℚ)))) ≤ dst.Dx := by
      rw [hg]
      have hlt := fmul_newWidth_lt (src.Dx : ℚ) (src.Dy : ℚ) (dst.Dx : ℚ) (dst.Dy : ℚ)
        hsx' hsy' hdx' hdy' hdxB' (not_lt.mp hcase)
      have h2' := Int.floor_lt.mpr (show roundf ((dst.Dy : ℚ) *
          roundf ((src.Dx : ℚ) / (src.Dy : ℚ))) < ((dst.Dx + 1 : ℤ) : ℚ) by
        push_cast
        linarith)
      omega
    set nw := goTrunc (roundf ((dst.Dy : ℚ) *
        roundf ((src.Dx : ℚ) / (src.Dy : ℚ)))) with hnw
    have htdiv : Int.tdiv (dst.Dx - nw) 2 = (dst.Dx - nw) / 2 :=
      Int.tdiv_eq_ediv (by omega) (by omega)
    rw [imageRect_ordered _ _ _ _ (by omega) hyle]
    have hDxrec : (⟨dst.minX + Int.tdiv (dst.Dx - nw) 2, dst.minY,
        dst.minX + Int.tdiv (dst.Dx - nw) 2 + nw, dst.maxY⟩ : goRect).Dx =
        nw := by
      show dst.minX + Int.tdiv (dst.Dx - nw) 2 + nw -
        (dst.minX + Int.tdiv (dst.Dx - nw) 2) = nw
      omega
    refine ⟨rfl, rfl, hDxrec, ?_, ?_, ?_, ?_⟩
    · rw [hDxrec]
      show dst.minX + Int.tdiv (dst.Dx - nw) 2 - dst.minX =
        Int.tdiv (dst.Dx - nw) 2
      omega
    · show dst.minX ≤ dst.minX + Int.tdiv (dst.Dx - nw) 2
      rw [htdiv]
      omega
    · show dst.minX + Int.tdiv (dst.Dx - nw) 2 + nw ≤ dst.maxX
      rw [htdiv]
      have hdxd : dst.Dx = dst.maxX - dst.minX := rfl
      omega
    · rw [hDxrec]
      show dst.minX + Int.tdiv (dst.Dx - nw) 2 - dst.minX +
        (dst.maxX - (dst.minX + Int.tdiv (dst.Dx - nw) 2 + nw)) =
        dst.Dx - nw
      rw [htdiv]
      have hdxd : dst.Dx = dst.maxX - dst.minX := rfl
      omega

/-- Counterexample to the exact-rational reading of the spec's letterbox
formula: at source rectangle 61×7 and destination rectangle 61×7 the
program's `float64` arithmetic produces a fitted width of 60
(`int(7 * (61.0/7.0)) = int(60.99999999999999)`), while the exact value
`dst.Dy * (src.Dx / src.Dy)` truncates to 61. -/
theorem c7_cex :
    (getScaledRect ⟨0, 0, 61, 7⟩ ⟨0, 0, 61, 7⟩).Dx = 60 ∧
    goTrunc (((⟨0, 0, 61, 7⟩ : goRect).Dy : ℚ) *
      (((⟨0, 0, 61, 7⟩ : goRect).Dx : ℚ) /
        ((⟨0, 0, 61, 7⟩ : goRect).Dy : ℚ))) = 61 := by
  have hDx : (⟨0, 0, 61, 7⟩ : goRect).Dx = (61:ℤ) := rfl
  have hDy : (⟨0, 0, 61, 7⟩ : goRect).Dy = (7:ℤ) := rfl
  constructor
  · simp only [getScaledRect, hDx, hDy]
    rw [if_neg (lt_irrefl _)]
    rw [fdiv_61_7, fmul_7_near61, goTrunc_near61]
    decide
  · rw [hDx, hDy]
    rw [show ((7:ℤ):ℚ) * (((61:ℤ):ℚ) / ((7:ℤ):ℚ)) = ((61:ℤ):ℚ) from by
      norm_num]
    rw [goTrunc_of_pos _ (by norm_num), Int.floor_intCast]

/-- Witness for `c7_letterbox` at the concrete source rectangle 4×2 and
destination rectangle 2×2: the source is wider, so the scaled rectangle
keeps the destination's horizontal extent, its height is the truncated
`float64` quotient, and it sits vertically inside the destination. -/
theorem c7_witness :
    (getScaledRect ⟨0, 0, 4, 2⟩ ⟨0, 0, 2, 2⟩).minX =
      (⟨0, 0, 2, 2⟩ : goRect).minX ∧
    (getScaledRect ⟨0, 0, 4, 2⟩ ⟨0, 0, 2, 2⟩).maxX =
      (⟨0, 0, 2, 2⟩ : goRect).maxX ∧
    (getScaledRect ⟨0, 0, 4, 2⟩ ⟨0, 0, 2, 2⟩).Dy =
      goTrunc (fdiv (toF (⟨0, 0, 2, 2⟩ : goRect).Dx)
        (fdiv (toF (⟨0, 0, 4, 2⟩ : goRect).Dx)
          (toF (⟨0, 0, 4, 2⟩ : goRect).Dy))) ∧
    (⟨0, 0, 2, 2⟩ : goRect).minY ≤
      (getScaledRect ⟨0, 0, 4, 2⟩ ⟨0, 0, 2, 2⟩).minY ∧
    (getScaledRect ⟨0, 0, 4, 2⟩ ⟨0, 0, 2, 2⟩).maxY ≤
      (⟨0, 0, 2, 2⟩ : goRect).maxY := by
  have e1 : fdiv (toF 2) (toF 2) = 1 := by
    rw [toF_small 2 (by norm_num) (by norm_num)]
    unfold fdiv
    rw [show ((2:ℤ):ℚ) / ((2:ℤ):ℚ) = ((1:ℤ):ℚ) from by norm_num]
    rw [roundf_intCast 1 (by norm_num) (by norm_num)]
    norm_num
  have e2 : fdiv (toF 4) (toF 2) = 2 := by
    rw [toF_small 4 (by norm_num) (by norm_num),
      toF_small 2 (by norm_num) (by norm_num)]
    unfold fdiv
    rw [show ((4:ℤ):ℚ) / ((2:ℤ):ℚ) = ((2:ℤ):ℚ) from by norm_num]
    rw [roundf_intCast 2 (by norm_num) (by norm_num)]
    norm_num
  have hlt : fdiv (toF (⟨0, 0, 2, 2⟩ : goRect).Dx)
      (toF (⟨0, 0, 2, 2⟩ : goRect).Dy) <
      fdiv (toF (⟨0, 0, 4, 2⟩ : goRect).Dx)
        (toF (⟨0, 0, 4, 2⟩ : goRect).Dy) := by
    show fdiv (toF 2) (toF 2) < fdiv (toF 4) (toF 2)
    rw [e1, e2]
    norm_num
  have h := (c7_letterbox ⟨0, 0, 4, 2⟩ ⟨0, 0, 2, 2⟩
    (getScaledRect ⟨0, 0, 4, 2⟩ ⟨0, 0, 2, 2⟩) (by decide) (by decide)
    (by decide) (by decide) (by decide) (by decide) (by decide) (by decide)
    rfl).1 hlt
  exact ⟨h.1, h.2.1, h.2.2.1, h.2.2.2.2.1, h.2.2.2.2.2.1⟩
